import Mathlib

/-!
# Forum support bot: the `messageCreate` handler of `src/bot.js`

A shallow embedding of the message handler (close command, tag consolidation,
first-response detection) and of `formatTime`, followed by the properties
established about them.

Conventions of the embedding.

* JavaScript strings are Lean strings; `startsWith` and `includes` are computed
  on their character lists.  Timestamps and the configured offset are integers.
* Requests sent to the chat platform and rows handed to `sendData` are recorded,
  in program order, in the `effects` of an `Outcome`.  Requests whose promise the
  handler awaits (`message.delete()`, `messages.fetch`, `members.fetch`) take
  their result from an `Env`; a rejected promise or a `TypeError` ends the
  handler and is recorded in `Outcome.error`.  Requests the handler does not
  await (`message.reply`, `message.channel.edit`, `sendData`) are recorded when
  they are issued; what becomes of them later is outside the embedding.
* The handler runs on guild messages: `message.guild` and the guild's entry in
  the client cache exist.
-/

set_option autoImplicit false

namespace ForumBot

/-! ## Data model -/

/-- The channel kinds of the platform that matter to the handler. -/
inductive ChannelType where
  | GuildText
  | GuildAnnouncement
  | AnnouncementThread
  | PublicThread
  | PrivateThread
  | GuildForum
  deriving DecidableEq, Repr

/-- A platform user (`message.author`, `member.user`, a mentioned user). -/
structure User where
  id : String
  username : String
  bot : Bool
  deriving DecidableEq, Repr

/-- A guild member; `roles` lists the keys of `member.roles.cache`. -/
structure GuildMember where
  user : User
  roles : List String
  deriving DecidableEq, Repr

/-- One entry of a forum's tag catalog (`post.availableTags`). -/
structure ForumTag where
  id : String
  name : String
  deriving DecidableEq, Repr

/-- The parent channel found by lines 103-104; `availableTags` is `none` when the
property is `undefined` (the parent is not a forum). -/
structure ParentChannel where
  id : String
  availableTags : Option (List ForumTag)
  deriving DecidableEq, Repr

/-- The channel a message was posted in (`message.channel`). -/
structure Channel where
  id : String
  type : ChannelType
  name : String
  appliedTags : List String
  archived : Bool
  locked : Bool
  deriving DecidableEq, Repr

/-- The part of `message.mentions` the handler reads: the mentioned users in order,
the `everyone` flag and the value of `mentions.has(client.user)`. -/
structure Mentions where
  users : List User
  everyone : Bool
  hasClientUser : Bool
  deriving DecidableEq, Repr

/-- A message as the handler sees it.  `post` is the channel object obtained by
`forum.channels.cache.get(message.channel.parent.id)` (`none` when that chain
yields `null` or `undefined`), `member` is `message.member`. -/
structure Message where
  id : String
  content : String
  author : User
  member : Option GuildMember
  mentions : Mentions
  channel : Channel
  post : Option ParentChannel
  createdTimestamp : Int
  deriving DecidableEq, Repr

/-- The options read from `config.json`. -/
structure Config where
  mention_message : String
  command_prefix : String
  resolution_tag_name : String
  datasheet_init : String
  datasheet_response : String
  datasheet_resolve : String
  utc_offset : Int
  deriving DecidableEq, Repr

/-- The rows the message handler passes to `sendData`. -/
inductive Row where
  | firstResponse (post_id first_response responder : String)
  | resolution (post_id resolution_time resolved_by : String)
  deriving DecidableEq, Repr

/-- The argument of `message.channel.edit`; a field that is absent is `none`. -/
structure ThreadEditOptions where
  name : Option String
  appliedTags : Option (List String)
  archived : Option Bool
  locked : Option Bool
  deriving DecidableEq, Repr

/-- What the handler asks of the outside world, in program order. -/
inductive Effect where
  | reply (messageId text : String)
  | delete (messageId : String)
  | edit (channelId : String) (options : ThreadEditOptions)
  | sendData (data : Row) (datasheet : String)
  deriving DecidableEq, Repr

/-- How a handler run can end abnormally. -/
inductive JsError where
  | typeError
  | rejected
  deriving DecidableEq, Repr

/-- The results of the awaited platform requests: whether `message.delete()`
resolves, what `message.channel.messages.fetch` resolves to (entries
`[id, message]`, newest first; `none` when it rejects) and what
`message.guild.members.fetch` resolves to for a user id. -/
structure Env where
  wsPing : Int
  deleteOk : Bool
  fetchMessages : Option (List (String × Message))
  fetchMember : String → Option GuildMember

/-- The effects of a handler run and the error that ended it, if any. -/
structure Outcome where
  effects : List Effect
  error : Option JsError
  deriving DecidableEq, Repr

/-! ## Small JavaScript library functions -/

/-- The call `String.prototype.startsWith`. -/
def startsWith (s p : String) : Bool :=
  p.data.isPrefixOf s.data

/-- The call `String.prototype.includes`: some position of `s` starts a copy of `p`. -/
def includes (s p : String) : Bool :=
  s.data.tails.any (fun t => p.data.isPrefixOf t)

/-- The call `Collection.prototype.hasAny`: one of `keys` is a key of the collection. -/
def hasAny (cache keys : List String) : Bool :=
  keys.any (fun k => cache.contains k)

/-- The value of `[...new Set(xs)]`: the elements in insertion order, each kept at
its first occurrence. -/
def setSpread (xs : List String) : List String :=
  xs.foldl (fun acc x => if acc.contains x then acc else acc ++ [x]) []

/-- The effect of a thread edit on the channel: the fields present are overwritten. -/
def applyEdit (c : Channel) (o : ThreadEditOptions) : Channel :=
  { c with
    name := o.name.getD c.name
    appliedTags := o.appliedTags.getD c.appliedTags
    archived := o.archived.getD c.archived
    locked := o.locked.getD c.locked }

/-! ## Time formatting

`formatTime` is one call chain into the moment library, a dependency whose code is
not part of the repository.  The definitions of this section follow the library's
documentation (`moment.utc`, `utcOffset`, the format tokens `M DD YYYY HH mm ss`)
and, for the calendar fields the library reads from the underlying `Date` through
its UTC getters, the day-number functions of the ECMAScript language
specification. -/

/-- Milliseconds per day. -/
def msPerDay : Int := 86400000

/-- The day number of a time value (ECMAScript `Day`). -/
def Day (t : Int) : Int := t / msPerDay

/-- The day number of the first day of year `y` (ECMAScript `DayFromYear`). -/
def DayFromYear (y : Int) : Int :=
  365 * (y - 1970) + (y - 1969) / 4 - (y - 1901) / 100 + (y - 1601) / 400

/-- The number of days of year `y` (ECMAScript `DaysInYear`). -/
def DaysInYear (y : Int) : Int :=
  if y % 4 ≠ 0 then 365 else if y % 100 ≠ 0 then 366 else if y % 400 ≠ 0 then 365 else 366

/-- The year containing a time value (ECMAScript `YearFromTime`: the largest `y`
whose first day is not after the day of `t`), computed from an estimate that is
off by at most one. -/
def YearFromTime (t : Int) : Int :=
  let d := Day t
  let y := 1970 + (d * 400) / 146097
  if DayFromYear (y + 1) ≤ d then y + 1 else if d < DayFromYear y then y - 1 else y

/-- One when the year of `t` is a leap year, else zero (ECMAScript `InLeapYear`). -/
def InLeapYear (t : Int) : Int :=
  if DaysInYear (YearFromTime t) = 366 then 1 else 0

/-- The zero-based day of the year (ECMAScript `DayWithinYear`). -/
def DayWithinYear (t : Int) : Int :=
  Day t - DayFromYear (YearFromTime t)

/-- The table of ECMAScript `MonthFromTime`: the zero-based month of the zero-based
day `d` of a year, `l` being one in a leap year and zero otherwise. -/
def monthOfYearDay (d l : Int) : Int :=
  if d < 31 then 0
  else if d < 59 + l then 1
  else if d < 90 + l then 2
  else if d < 120 + l then 3
  else if d < 151 + l then 4
  else if d < 181 + l then 5
  else if d < 212 + l then 6
  else if d < 243 + l then 7
  else if d < 273 + l then 8
  else if d < 304 + l then 9
  else if d < 334 + l then 10
  else 11

/-- The table of ECMAScript `DateFromTime`: the day of the month, from one, of the
zero-based day `d` of a year that falls in the zero-based month `m`. -/
def dateOfYearDay (m d l : Int) : Int :=
  if m = 0 then d + 1
  else if m = 1 then d - 30
  else if m = 2 then d - 58 - l
  else if m = 3 then d - 89 - l
  else if m = 4 then d - 119 - l
  else if m = 5 then d - 150 - l
  else if m = 6 then d - 180 - l
  else if m = 7 then d - 211 - l
  else if m = 8 then d - 242 - l
  else if m = 9 then d - 272 - l
  else if m = 10 then d - 303 - l
  else d - 333 - l

/-- The zero-based month (ECMAScript `MonthFromTime`). -/
def MonthFromTime (t : Int) : Int :=
  monthOfYearDay (DayWithinYear t) (InLeapYear t)

/-- The day of the month, from one (ECMAScript `DateFromTime`). -/
def DateFromTime (t : Int) : Int :=
  dateOfYearDay (MonthFromTime t) (DayWithinYear t) (InLeapYear t)

/-- The hour of the day (ECMAScript `HourFromTime`). -/
def HourFromTime (t : Int) : Int := (t / 3600000) % 24

/-- The minute of the hour (ECMAScript `MinFromTime`). -/
def MinFromTime (t : Int) : Int := (t / 60000) % 60

/-- The second of the minute (ECMAScript `SecFromTime`). -/
def SecFromTime (t : Int) : Int := (t / 1000) % 60

/-- The helper `zeroFill(number, targetLength)` of moment: the sign when negative,
then the decimal digits of the absolute value left-padded with zeros. -/
def zeroFill (n : Int) (targetLength : Nat) : String :=
  let absNumber := toString n.natAbs
  (if 0 ≤ n then "" else "-")
    ++ String.mk (List.replicate (targetLength - absNumber.length) '0') ++ absNumber

/-- A moment object in UTC mode: the instant it denotes and its offset in minutes. -/
structure Moment where
  instant : Int
  offset : Int
  valid : Bool
  deriving DecidableEq, Repr

/-- The call `moment.utc(date)` on a number: an instant outside the range of `Date`
gives an invalid moment. -/
def Moment.utc (date : Int) : Moment :=
  { instant := date, offset := 0, valid := decide (date.natAbs ≤ 8640000000000000) }

/-- The call `utcOffset(input)` on a number.  The library documents the argument as
minutes, with this exception: "if the input is less than 16 and greater than -16,
it will interpret your input as hours instead".  An invalid moment is unchanged. -/
def Moment.utcOffset (m : Moment) (input : Int) : Moment :=
  if m.valid then
    { m with offset := if input.natAbs < 16 then input * 60 else input }
  else m

/-- The time value whose UTC fields the getters of the moment read. -/
def Moment.clock (m : Moment) : Int :=
  m.instant + m.offset * 60000

/-- The call `format('M/DD/YYYY HH:mm:ss')`.  A clock pushed outside the range of
`Date` by the offset leaves an invalid `Date`, rendered as `Invalid date`. -/
def Moment.format (m : Moment) : String :=
  if m.valid && decide (m.clock.natAbs ≤ 8640000000000000) then
    let t := m.clock
    toString (MonthFromTime t + 1) ++ "/" ++ zeroFill (DateFromTime t) 2 ++ "/"
      ++ zeroFill (YearFromTime t) 4 ++ " " ++ zeroFill (HourFromTime t) 2 ++ ":"
      ++ zeroFill (MinFromTime t) 2 ++ ":" ++ zeroFill (SecFromTime t) 2
  else "Invalid date"

/-- The function `formatTime` (lines 273-275). -/
def formatTime (config : Config) (date : Int) : String :=
  ((Moment.utc date).utcOffset config.utc_offset).format

/-! ## The `messageCreate` handler -/

/-- Running `b` after `a`: nothing of `b` happens when `a` ended in an error. -/
def Outcome.andThen (a b : Outcome) : Outcome :=
  match a.error with
  | some _ => a
  | none => { effects := a.effects ++ b.effects, error := b.error }

/-- The value of `resolutionTag` (line 109): the catalog entries carrying the
configured resolution tag name. -/
def resolutionTag (config : Config) (availableTags : List ForumTag) : List ForumTag :=
  availableTags.filter (fun item => item.name == config.resolution_tag_name)

/-- The value of `tags` (lines 114-115) for a resolved-tag id and the thread's
applied tags. -/
def consolidate (resolvedTagId : String) (postTags : List String) : List String :=
  let initialTags := resolvedTagId :: postTags
  setSpread initialTags

/-- The test of line 118. -/
def isCloseCommand (config : Config) (content : String) : Bool :=
  startsWith content (Config.command_prefix config) && includes content "close"

/-- The row sent for an accepted close command (lines 130-149). -/
def resolutionRow (config : Config) (message : Message) (member : GuildMember) : Row :=
  let postId := message.channel.id
  let resolutionTime := formatTime config message.createdTimestamp
  let resolvedBy := member.user.username
  match message.mentions.users.head? with
  | some first => Row.resolution postId resolutionTime first.username
  | none => Row.resolution postId resolutionTime resolvedBy

/-- The close command, lines 118-151.  The request to delete the message is recorded
whether or not it succeeds; when its promise rejects the handler ends there. -/
def closeCommand (config : Config) (roleIDs : List String) (env : Env) (message : Message)
    (tags : List String) : Outcome :=
  if isCloseCommand config message.content then
    if env.deleteOk then
      if message.channel.type = ChannelType.PublicThread then
        match message.member with
        | none => { effects := [Effect.delete message.id], error := some JsError.typeError }
        | some member =>
          if hasAny member.roles roleIDs then
            { effects :=
                [Effect.delete message.id,
                 Effect.edit message.channel.id
                   { name := none, appliedTags := some tags, archived := some true,
                     locked := none },
                 Effect.sendData (resolutionRow config message member)
                   config.datasheet_resolve],
              error := none }
          else { effects := [Effect.delete message.id], error := none }
      else { effects := [Effect.delete message.id], error := none }
    else { effects := [Effect.delete message.id], error := some JsError.rejected }
  else { effects := [], error := none }

/-- The condition `i < i >= 0` of the loop of line 165.  It parses as
`(i < i) >= 0`: the comparison yields a boolean, which `>=` converts to a number. -/
def loopCondition (i : Int) : Bool :=
  decide ((if i < i then (1 : Int) else 0) ≥ 0)

/-- The row sent for the first staff message (lines 177-185). -/
def firstResponseRow (config : Config) (message : Message) (entry : String × Message) : Row :=
  let postId := message.channel.id
  let firstResponse := formatTime config entry.2.createdTimestamp
  let firstResponder := entry.2.author.username
  Row.firstResponse postId firstResponse firstResponder

/-- The loop of lines 165-191; the argument is `i + 1`, so that `0` stands for
`i = -1`, where `fetchMessagesArray[i]` is `undefined` and reading its element `1`
throws. -/
def scanLoop (config : Config) (roleIDs : List String) (env : Env) (message : Message)
    (fetchMessagesArray : List (String × Message)) : Nat → Outcome
  | 0 =>
    if loopCondition (-1) then { effects := [], error := some JsError.typeError }
    else { effects := [], error := none }
  | i + 1 =>
    if loopCondition i then
      match fetchMessagesArray[i]? with
      | none => { effects := [], error := some JsError.typeError }
      | some entry =>
        match env.fetchMember entry.2.author.id with
        | none => { effects := [], error := some JsError.rejected }
        | some member =>
          if hasAny member.roles roleIDs then
            if message.id = entry.1 then
              { effects :=
                  [Effect.sendData (firstResponseRow config message entry)
                    config.datasheet_response],
                error := none }
            else { effects := [], error := none }
          else scanLoop config roleIDs env message fetchMessagesArray i
    else { effects := [], error := none }

/-- The first-response capture, lines 157-193. -/
def captureFirstResponse (config : Config) (roleIDs : List String) (env : Env)
    (message : Message) : Outcome :=
  if message.channel.type = ChannelType.PublicThread then
    match message.member with
    | none => { effects := [], error := some JsError.typeError }
    | some member =>
      if hasAny member.roles roleIDs then
        match env.fetchMessages with
        | none => { effects := [], error := some JsError.rejected }
        | some fetchMessagesArray =>
          if fetchMessagesArray.length ≠ 0 then
            scanLoop config roleIDs env message fetchMessagesArray fetchMessagesArray.length
          else { effects := [], error := none }
      else { effects := [], error := none }
  else { effects := [], error := none }

/-- The replies of lines 89-96. -/
def replies (config : Config) (env : Env) (message : Message) : List Effect :=
  (if message.content = "ping" then
      [Effect.reply message.id ("Pong: " ++ toString env.wsPing ++ "ms")]
    else [])
  ++ (if message.mentions.hasClientUser && !message.mentions.everyone then
      [Effect.reply message.id config.mention_message]
    else [])

/-- The forum part of the handler, lines 107-194. -/
def forumPost (config : Config) (roleIDs : List String) (env : Env) (message : Message)
    (availableTags : List ForumTag) : Outcome :=
  match (resolutionTag config availableTags)[0]? with
  | none => { effects := [], error := some JsError.typeError }
  | some tag =>
    let postTags := message.channel.appliedTags
    let tags := consolidate tag.id postTags
    (closeCommand config roleIDs env message tags).andThen
      (captureFirstResponse config roleIDs env message)

/-- The `messageCreate` handler, lines 85-195. -/
def messageCreate (config : Config) (roleIDs : List String) (env : Env) (message : Message) :
    Outcome :=
  if message.author.bot then { effects := [], error := none }
  else
    Outcome.andThen { effects := replies config env message, error := none }
      (match message.post with
       | none => { effects := [], error := some JsError.typeError }
       | some post =>
         match post.availableTags with
         | none => { effects := [], error := none }
         | some availableTags => forumPost config roleIDs env message availableTags)

/-! ## Reading an outcome -/

/-- The rows of the first-response shape handed to `sendData`. -/
def firstResponseRows (o : Outcome) : List (Row × String) :=
  o.effects.filterMap fun e =>
    match e with
    | Effect.sendData (Row.firstResponse p t r) sheet => some (Row.firstResponse p t r, sheet)
    | _ => none

/-- The rows of the resolution shape handed to `sendData`. -/
def resolutionRows (o : Outcome) : List (Row × String) :=
  o.effects.filterMap fun e =>
    match e with
    | Effect.sendData (Row.resolution p t r) sheet => some (Row.resolution p t r, sheet)
    | _ => none

/-- All rows handed to `sendData`. -/
def sentRows (o : Outcome) : List (Row × String) :=
  o.effects.filterMap fun e =>
    match e with
    | Effect.sendData row sheet => some (row, sheet)
    | _ => none

/-- The requests that change the platform state (deletions and thread edits). -/
def mutations (o : Outcome) : List Effect :=
  o.effects.filter fun e =>
    match e with
    | Effect.delete _ => true
    | Effect.edit _ _ => true
    | _ => false

/-- The thread edits requested. -/
def edits (o : Outcome) : List Effect :=
  o.effects.filter fun e =>
    match e with
    | Effect.edit _ _ => true
    | _ => false

/-- The message deletions requested. -/
def deletions (o : Outcome) : List Effect :=
  o.effects.filter fun e =>
    match e with
    | Effect.delete _ => true
    | _ => false

/-! ## Descriptions used in the statements -/

/-- How the loop of lines 165-191 ends on the entries it visits, listed in the order
of the visits: at the first entry whose author holds a staff role, with a rejected
member lookup, or past the last entry. -/
inductive ScanEnd where
  | found (entry : String × Message)
  | lookupRejected
  | pastTheEnd
  deriving DecidableEq, Repr

/-- The end of the loop on the entries `visited`, oldest first. -/
def scanEnd (roleIDs : List String) (env : Env) : List (String × Message) → ScanEnd
  | [] => ScanEnd.pastTheEnd
  | entry :: rest =>
    match env.fetchMember entry.2.author.id with
    | none => ScanEnd.lookupRejected
    | some member =>
      if hasAny member.roles roleIDs then ScanEnd.found entry else scanEnd roleIDs env rest

/-- What the handler does at each end of the loop. -/
def scanOutcome (config : Config) (message : Message) : ScanEnd → Outcome
  | ScanEnd.found entry =>
    if message.id = entry.1 then
      { effects :=
          [Effect.sendData (firstResponseRow config message entry) config.datasheet_response],
        error := none }
    else { effects := [], error := none }
  | ScanEnd.lookupRejected => { effects := [], error := some JsError.rejected }
  | ScanEnd.pastTheEnd => { effects := [], error := some JsError.typeError }

/-- The author of a fetched entry is found by the member lookup and holds a staff role. -/
def staffAuthored (roleIDs : List String) (env : Env) (entry : String × Message) : Bool :=
  match env.fetchMember entry.2.author.id with
  | some member => hasAny member.roles roleIDs
  | none => false

/-- The author of a fetched entry is found by the member lookup and holds no staff role. -/
def plainAuthored (roleIDs : List String) (env : Env) (entry : String × Message) : Bool :=
  match env.fetchMember entry.2.author.id with
  | some member => !hasAny member.roles roleIDs
  | none => false

/-- The detector as the specification words it: scanning the fetched entries oldest
first (from the last element of the array to the first), the first one whose author
is staff-qualifying and not a bot. -/
def detectFirstResponseSpec (roleIDs : List String) (env : Env)
    (fetched : List (String × Message)) : Option (String × Message) :=
  fetched.reverse.find? fun entry => staffAuthored roleIDs env entry && !entry.2.author.bot

/-! ## The calendar, as the statements use it -/

/-- Whether `y` is a leap year of the Gregorian calendar. -/
def isLeapYear (y : Int) : Bool :=
  decide (y % 4 = 0) && (decide (y % 100 ≠ 0) || decide (y % 400 = 0))

/-- The number of days of month `m` (from one) of year `y`. -/
def daysInMonth (y m : Int) : Int :=
  if m = 2 then (if isLeapYear y then 29 else 28)
  else if m = 4 ∨ m = 6 ∨ m = 9 ∨ m = 11 then 30
  else 31

/-- The number of days from 1 January 1970 to the date `y`-`m`-`d` of the proleptic
Gregorian calendar, counted by whole 400-year eras and by years that start in March. -/
def daysFromCivil (y m d : Int) : Int :=
  let y1 := if m ≤ 2 then y - 1 else y
  let era := y1 / 400
  let yoe := y1 - era * 400
  let mp := if 2 < m then m - 3 else m + 9
  let doy := (153 * mp + 2) / 5 + d - 1
  let doe := yoe * 365 + yoe / 4 - yoe / 100 + doy
  era * 146097 + doe - 719468

/-- A calendar date and a time of day. -/
structure CivilTime where
  year : Int
  month : Int
  day : Int
  hour : Int
  minute : Int
  second : Int
  deriving DecidableEq, Repr

/-- The reading `c` is the UTC calendar date and time of the instant `t` (milliseconds
since the epoch): a date of the calendar and a time of day that name the second
containing `t`. -/
def IsCivilTimeOf (t : Int) (c : CivilTime) : Prop :=
  1 ≤ c.month ∧ c.month ≤ 12 ∧ 1 ≤ c.day ∧ c.day ≤ daysInMonth c.year c.month ∧
  0 ≤ c.hour ∧ c.hour < 24 ∧ 0 ≤ c.minute ∧ c.minute < 60 ∧
  0 ≤ c.second ∧ c.second < 60 ∧
  ((daysFromCivil c.year c.month c.day * 24 + c.hour) * 60 + c.minute) * 60 + c.second
    = t / 1000

instance (t : Int) (c : CivilTime) : Decidable (IsCivilTimeOf t c) := by
  unfold IsCivilTimeOf
  infer_instance

/-- Two decimal digits. -/
def twoDigits (n : Int) : List Char :=
  [Nat.digitChar (n.toNat / 10), Nat.digitChar (n.toNat % 10)]

/-- Four decimal digits. -/
def fourDigits (n : Int) : List Char :=
  [Nat.digitChar (n.toNat / 1000), Nat.digitChar (n.toNat / 100 % 10),
   Nat.digitChar (n.toNat / 10 % 10), Nat.digitChar (n.toNat % 10)]

/-- The rendering `M/DD/YYYY HH:mm:ss` of a reading: the month without a leading
zero, then day, four-digit year, hour, minute and second, each of the last three
and the day on two digits. -/
def renderCivil (c : CivilTime) : String :=
  String.mk
    ((if c.month < 10 then [Nat.digitChar c.month.toNat] else twoDigits c.month)
      ++ '/' :: twoDigits c.day ++ '/' :: fourDigits c.year
      ++ ' ' :: twoDigits c.hour ++ ':' :: twoDigits c.minute ++ ':' :: twoDigits c.second)

/-! ## Sample data -/

namespace Sample

/-- A configuration with prefix `!` and a zero offset. -/
def config : Config :=
  { mention_message := "How can I help?"
    command_prefix := "!"
    resolution_tag_name := "Resolved"
    datasheet_init := "init"
    datasheet_response := "response"
    datasheet_resolve := "resolve"
    utc_offset := 0 }

/-- The staff roster. -/
def roleIDs : List String := ["900"]

/-- A staff member. -/
def alice : GuildMember := { user := { id := "1", username := "alice", bot := false }, roles := ["900"] }

/-- A member without a staff role. -/
def bob : GuildMember := { user := { id := "2", username := "bob", bot := false }, roles := ["700"] }

/-- A bot that holds the staff role. -/
def helper : GuildMember := { user := { id := "3", username := "helper", bot := true }, roles := ["900"] }

/-- A second staff member. -/
def carol : GuildMember := { user := { id := "4", username := "carol", bot := false }, roles := ["900"] }

/-- The member lookup of the guild. -/
def fetchMember (id : String) : Option GuildMember :=
  if id = "1" then some alice
  else if id = "2" then some bob
  else if id = "3" then some helper
  else if id = "4" then some carol
  else none

/-- An open forum thread with two applied tags. -/
def thread : Channel :=
  { id := "500", type := ChannelType.PublicThread, name := "printer on fire",
    appliedTags := ["11", "12", "11"], archived := false, locked := false }

/-- The forum of the thread, whose catalog holds the resolution tag. -/
def forum : ParentChannel :=
  { id := "400", availableTags := some [{ id := "11", name := "bug" }, { id := "10", name := "Resolved" }] }

/-- A forum whose catalog lacks the resolution tag. -/
def forumNoTag : ParentChannel :=
  { id := "401", availableTags := some [{ id := "11", name := "bug" }] }

/-- A message of the thread. -/
def msg (id content : String) (member : GuildMember) (createdTimestamp : Int) : Message :=
  { id := id, content := content, author := member.user, member := some member,
    mentions := { users := [], everyone := false, hasClientUser := false },
    channel := thread, post := some forum, createdTimestamp := createdTimestamp }

/-- The results of the platform requests, for a fetched history. -/
def env (fetched : List (String × Message)) : Env :=
  { wsPing := 42, deleteOk := true, fetchMessages := some fetched, fetchMember := fetchMember }

/-- A question of bob followed by an answer of alice, newest first. -/
def history : List (String × Message) :=
  [("602", msg "602" "try turning it off" alice 2000), ("601", msg "601" "it still burns" bob 1000)]

/-- A history where the staff-roled bot answered before alice, newest first. -/
def historyWithBot : List (String × Message) :=
  [("602", msg "602" "try turning it off" alice 2000), ("601", msg "601" "beep" helper 1000)]

/-- A question of bob, an answer of alice and a later answer of carol, newest first. -/
def historyLong : List (String × Message) :=
  ("603", msg "603" "or unplug it" carol 3000) :: history

/-- A history without any staff message. -/
def historyNoStaff : List (String × Message) :=
  [("601", msg "601" "it still burns" bob 1000)]

/-- A close command of alice that names carol as the resolver. -/
def closeByAlice : Message :=
  { msg "610" "!close" alice 5000 with
    mentions := { users := [carol.user], everyone := false, hasClientUser := false } }

/-- A close command of bob, who holds no staff role. -/
def closeByBob : Message := msg "611" "!close" bob 6000

/-- A message of alice that is not the close directive but contains `close`. -/
def discloseByAlice : Message := msg "612" "!disclose" alice 7000

/-- The answer of alice, as the incoming message. -/
def answerByAlice : Message := msg "602" "try turning it off" alice 2000

/-- The later answer of carol, as the incoming message. -/
def answerByCarol : Message := msg "603" "or unplug it" carol 3000

/-- A message of alice in a forum whose catalog lacks the resolution tag. -/
def closeNoTag : Message := { msg "613" "!close" alice 8000 with post := some forumNoTag }

/-- The resolution tag of the sample forum. -/
def resolvedTag : ForumTag := { id := "10", name := "Resolved" }

/-- The catalog of the sample forum. -/
def catalog : List ForumTag := [{ id := "11", name := "bug" }, resolvedTag]

/-- The results of the platform requests when the deletion of the message rejects. -/
def envDeleteFails (fetched : List (String × Message)) : Env :=
  { env fetched with deleteOk := false }

/-- The member bob while he still held the staff role. -/
def bobAsStaff : GuildMember := { bob with roles := ["900"] }

/-- The member lookup of the guild while bob still held the staff role. -/
def fetchMemberEarly (id : String) : Option GuildMember :=
  if id = "2" then some bobAsStaff else fetchMember id

/-- The results of the platform requests while bob still held the staff role. -/
def envEarly (fetched : List (String × Message)) : Env :=
  { env fetched with fetchMember := fetchMemberEarly }

/-- The message of bob, as the incoming message, while he still held the staff role. -/
def messageByBobAsStaff : Message := msg "601" "it still burns" bobAsStaff 1000

/-- The sample configuration with offset `5`. -/
def configOffset5 : Config := { config with utc_offset := 5 }

/-- The sample configuration with offset `330`. -/
def configOffset330 : Config := { config with utc_offset := 330 }

end Sample

/-! ## Tag consolidation -/

/-- The step of the fold in `setSpread`. -/
theorem setSpread_fold_spec (xs acc : List String) :
    ∃ ext : List String,
      xs.foldl (fun acc x => if acc.contains x then acc else acc ++ [x]) acc = acc ++ ext ∧
      (∀ x, x ∈ ext ↔ x ∈ xs ∧ x ∉ acc) ∧
      ext.Nodup ∧
      ext.Pairwise (fun x y => xs.indexOf x < xs.indexOf y) := by
  induction xs generalizing acc with
  | nil => exact ⟨[], by simp⟩
  | cons a t ih =>
    by_cases ha : a ∈ acc
    · obtain ⟨ext, h1, h2, h3, h4⟩ := ih acc
      refine ⟨ext, ?_, ?_, h3, ?_⟩
      · rw [List.foldl_cons, if_pos (by simpa using ha)]
        exact h1
      · intro x
        rw [h2 x]
        constructor
        · rintro ⟨hx, hn⟩
          exact ⟨List.mem_cons_of_mem _ hx, hn⟩
        · rintro ⟨hx, hn⟩
          rcases List.mem_cons.1 hx with rfl | hx
          · exact absurd ha hn
          · exact ⟨hx, hn⟩
      · refine h4.imp_of_mem ?_
        intro x y hx hy hxy
        have hxa : x ≠ a := fun h => ((h2 x).1 hx).2 (h ▸ ha)
        have hya : y ≠ a := fun h => ((h2 y).1 hy).2 (h ▸ ha)
        rw [List.indexOf_cons_ne _ (Ne.symm hxa), List.indexOf_cons_ne _ (Ne.symm hya)]
        exact Nat.succ_lt_succ hxy
    · obtain ⟨ext, h1, h2, h3, h4⟩ := ih (acc ++ [a])
      refine ⟨a :: ext, ?_, ?_, ?_, ?_⟩
      · rw [List.foldl_cons, if_neg (by simpa using ha), h1]
        simp
      · intro x
        rw [List.mem_cons, h2 x, List.mem_append, List.mem_singleton, not_or, List.mem_cons]
        constructor
        · rintro (rfl | ⟨hx, hn, _⟩)
          · exact ⟨Or.inl rfl, ha⟩
          · exact ⟨Or.inr hx, hn⟩
        · rintro ⟨rfl | hx, hn⟩
          · exact Or.inl rfl
          · by_cases hxa : x = a
            · exact Or.inl hxa
            · exact Or.inr ⟨hx, hn, hxa⟩
      · refine List.nodup_cons.2 ⟨?_, h3⟩
        intro hmem
        have := ((h2 a).1 hmem).2
        simp at this
      · refine List.pairwise_cons.2 ⟨?_, ?_⟩
        · intro y hy
          have hya : y ≠ a := by
            intro h
            have := ((h2 y).1 hy).2
            simp [h] at this
          rw [List.indexOf_cons_self, List.indexOf_cons_ne _ (Ne.symm hya)]
          exact Nat.succ_pos _
        · refine h4.imp_of_mem ?_
          intro x y hx hy hxy
          have hxa : x ≠ a := by
            intro h
            have := ((h2 x).1 hx).2
            simp [h] at this
          have hya : y ≠ a := by
            intro h
            have := ((h2 y).1 hy).2
            simp [h] at this
          rw [List.indexOf_cons_ne _ (Ne.symm hxa), List.indexOf_cons_ne _ (Ne.symm hya)]
          exact Nat.succ_lt_succ hxy

/-- The consolidated list is the resolved tag followed by the other tags of the
thread, each once, in the order of their first occurrence. -/
theorem consolidate_eq (r : String) (S : List String) :
    ∃ rest : List String,
      consolidate r S = r :: rest ∧
      (∀ x, x ∈ rest ↔ x ∈ S ∧ x ≠ r) ∧
      rest.Nodup ∧
      rest.Pairwise (fun x y => S.indexOf x < S.indexOf y) := by
  obtain ⟨ext, h1, h2, h3, h4⟩ := setSpread_fold_spec S [r]
  refine ⟨ext, ?_, ?_, h3, h4⟩
  · simpa [consolidate, setSpread] using h1
  · intro x
    simpa using h2 x

/-- C4: for every resolved-tag id `r` and every list `S` of applied tag ids, the
consolidated tag list has `r` as its first element, contains `r` exactly once,
contains each element of `S` exactly once and nothing but `r` and elements of `S`,
and lists the elements of `S` other than `r` in the order of their first
occurrence in `S`. -/
theorem consolidate_spec (r : String) (S : List String) :
    (consolidate r S).head? = some r ∧
    (consolidate r S).count r = 1 ∧
    (∀ x ∈ S, (consolidate r S).count x = 1) ∧
    (∀ x ∈ consolidate r S, x = r ∨ x ∈ S) ∧
    (∀ x ∈ (consolidate r S).tail, x ≠ r) ∧
    (consolidate r S).tail.Pairwise (fun x y => S.indexOf x < S.indexOf y) := by
  obtain ⟨rest, h1, h2, h3, h4⟩ := consolidate_eq r S
  have hr : r ∉ rest := fun h => ((h2 r).1 h).2 rfl
  have hnd : (r :: rest).Nodup := List.nodup_cons.2 ⟨hr, h3⟩
  rw [h1]
  refine ⟨rfl, ?_, ?_, ?_, ?_, ?_⟩
  · exact List.count_eq_one_of_mem hnd (List.mem_cons_self _ _)
  · intro x hx
    refine List.count_eq_one_of_mem hnd ?_
    by_cases hxr : x = r
    · exact hxr ▸ List.mem_cons_self _ _
    · exact List.mem_cons_of_mem _ ((h2 x).2 ⟨hx, hxr⟩)
  · intro x hx
    rcases List.mem_cons.1 hx with h | h
    · exact Or.inl h
    · exact Or.inr ((h2 x).1 h).1
  · intro x hx
    exact ((h2 x).1 hx).2
  · exact h4

/-! ## Library functions -/

theorem startsWith_iff (s p : String) : startsWith s p = true ↔ p.data <+: s.data := by
  simp [startsWith]

theorem includes_iff (s p : String) : includes s p = true ↔ p.data <:+: s.data := by
  simp only [includes, List.any_eq_true, List.mem_tails, List.isPrefixOf_iff_prefix]
  constructor
  · rintro ⟨t, hsuf, hpre⟩
    exact List.infix_iff_prefix_suffix.2 ⟨t, hpre, hsuf⟩
  · intro h
    obtain ⟨t, hpre, hsuf⟩ := List.infix_iff_prefix_suffix.1 h
    exact ⟨t, hsuf, hpre⟩

theorem loopCondition_true (i : Int) : loopCondition i = true := by
  simp [loopCondition]

/-! ## The scan loop -/

theorem scanLoop_eq (config : Config) (roleIDs : List String) (env : Env) (message : Message)
    (arr : List (String × Message)) (k : Nat) (hk : k ≤ arr.length) :
    scanLoop config roleIDs env message arr k
      = scanOutcome config message (scanEnd roleIDs env (arr.take k).reverse) := by
  induction k with
  | zero => simp [scanLoop, loopCondition_true, scanEnd, scanOutcome]
  | succ i ih =>
    have hi : i < arr.length := hk
    have hget : arr[i]? = some arr[i] := List.getElem?_eq_getElem hi
    rw [scanLoop, if_pos (loopCondition_true _), hget, List.take_succ, hget]
    simp only [Option.toList_some, List.reverse_append, List.reverse_cons, List.reverse_nil,
      List.nil_append, List.singleton_append, scanEnd]
    cases hm : env.fetchMember arr[i].2.author.id with
    | none => simp [scanOutcome]
    | some member =>
      by_cases hs : hasAny member.roles roleIDs = true
      · simp [hs, scanOutcome]
      · simp only [hs, if_false, Bool.false_eq_true]
        exact ih (Nat.le_of_lt hi)

theorem scanEnd_append_plain (roleIDs : List String) (env : Env)
    (A B : List (String × Message)) (hA : ∀ x ∈ A, plainAuthored roleIDs env x = true) :
    scanEnd roleIDs env (A ++ B) = scanEnd roleIDs env B := by
  induction A with
  | nil => rfl
  | cons a t ih =>
    have ha := hA a (List.mem_cons_self _ _)
    unfold plainAuthored at ha
    rw [List.cons_append, scanEnd]
    cases hm : env.fetchMember a.2.author.id with
    | none => simp [hm] at ha
    | some member =>
      simp only [hm, Bool.not_eq_true'] at ha
      simp only [ha, if_false, Bool.false_eq_true]
      exact ih (fun x hx => hA x (List.mem_cons_of_mem _ hx))

theorem scanEnd_cons_staff (roleIDs : List String) (env : Env) (e : String × Message)
    (B : List (String × Message)) (he : staffAuthored roleIDs env e = true) :
    scanEnd roleIDs env (e :: B) = ScanEnd.found e := by
  unfold staffAuthored at he
  rw [scanEnd]
  cases hm : env.fetchMember e.2.author.id with
  | none => simp [hm] at he
  | some member =>
    simp only [hm] at he
    simp [he]

theorem scanEnd_found_append (roleIDs : List String) (env : Env)
    (A B : List (String × Message)) (e : String × Message)
    (h : scanEnd roleIDs env A = ScanEnd.found e) :
    scanEnd roleIDs env (A ++ B) = ScanEnd.found e := by
  induction A with
  | nil => simp [scanEnd] at h
  | cons a t ih =>
    rw [List.cons_append, scanEnd]
    rw [scanEnd] at h
    cases hm : env.fetchMember a.2.author.id with
    | none => simp [hm] at h
    | some member =>
      simp only [hm] at h ⊢
      by_cases hs : hasAny member.roles roleIDs = true
      · simpa [hs] using h
      · simp only [hs, if_false, Bool.false_eq_true] at h ⊢
        exact ih h

theorem scanEnd_congr (roleIDs : List String) (env env' : Env)
    (h : env'.fetchMember = env.fetchMember) (A : List (String × Message)) :
    scanEnd roleIDs env' A = scanEnd roleIDs env A := by
  induction A with
  | nil => rfl
  | cons a t ih => simp only [scanEnd, h, ih]

theorem scanEnd_no_staff (roleIDs : List String) (env : Env)
    (A : List (String × Message)) (hA : ∀ x ∈ A, plainAuthored roleIDs env x = true) :
    scanEnd roleIDs env A = ScanEnd.pastTheEnd := by
  have := scanEnd_append_plain roleIDs env A [] hA
  simpa [scanEnd] using this

/-! ## Rows of an outcome -/

theorem firstResponseRows_andThen (a b : Outcome) :
    firstResponseRows (a.andThen b)
      = if a.error = none then firstResponseRows a ++ firstResponseRows b
        else firstResponseRows a := by
  unfold Outcome.andThen
  cases h : a.error <;> simp [firstResponseRows, List.filterMap_append]

theorem firstResponseRows_closeCommand (config : Config) (roleIDs : List String) (env : Env)
    (message : Message) (tags : List String) :
    firstResponseRows (closeCommand config roleIDs env message tags) = [] := by
  unfold closeCommand resolutionRow
  split_ifs <;> try rfl
  split
  · rfl
  · split_ifs
    · cases message.mentions.users.head? <;> rfl
    · rfl

theorem firstResponseRows_replies (config : Config) (env : Env) (message : Message) :
    firstResponseRows { effects := replies config env message, error := none } = [] := by
  unfold replies firstResponseRows
  split_ifs <;> rfl

theorem firstResponseRows_scanOutcome (config : Config) (message : Message) (s : ScanEnd) :
    firstResponseRows (scanOutcome config message s)
      = match s with
        | ScanEnd.found e =>
          if message.id = e.1 then
            [(firstResponseRow config message e, config.datasheet_response)]
          else []
        | _ => [] := by
  cases s with
  | found e =>
    simp only [scanOutcome]
    split_ifs <;> rfl
  | lookupRejected => rfl
  | pastTheEnd => rfl

/-! ## The handler on a forum thread -/

theorem andThen_effects (a b : Outcome) :
    (a.andThen b).effects = if a.error = none then a.effects ++ b.effects else a.effects := by
  unfold Outcome.andThen
  cases h : a.error <;> simp

theorem andThen_error (a b : Outcome) :
    (a.andThen b).error = if a.error = none then b.error else a.error := by
  unfold Outcome.andThen
  cases h : a.error <;> simp [h]

theorem messageCreate_forum (config : Config) (roleIDs : List String) (env : Env)
    (message : Message) (post : ParentChannel) (availableTags : List ForumTag)
    (hbot : message.author.bot = false) (hpost : message.post = some post)
    (htags : post.availableTags = some availableTags) :
    messageCreate config roleIDs env message
      = Outcome.andThen { effects := replies config env message, error := none }
          (forumPost config roleIDs env message availableTags) := by
  simp [messageCreate, hbot, hpost, htags]

theorem forumPost_tag (config : Config) (roleIDs : List String) (env : Env)
    (message : Message) (availableTags : List ForumTag) (tag : ForumTag)
    (htag : (resolutionTag config availableTags)[0]? = some tag) :
    forumPost config roleIDs env message availableTags
      = (closeCommand config roleIDs env message
            (consolidate tag.id message.channel.appliedTags)).andThen
          (captureFirstResponse config roleIDs env message) := by
  simp [forumPost, htag]

theorem captureFirstResponse_effects (config : Config) (roleIDs : List String) (env : Env)
    (message : Message) :
    ∀ e ∈ (captureFirstResponse config roleIDs env message).effects,
      ∃ entry, e = Effect.sendData (firstResponseRow config message entry)
        config.datasheet_response := by
  intro e he
  unfold captureFirstResponse at he
  split at he
  · split at he
    · simp at he
    · split at he
      · split at he
        · simp at he
        · split at he
          · rename_i arr _ hlen
            rw [scanLoop_eq _ _ _ _ _ _ (Nat.le_refl _)] at he
            generalize scanEnd roleIDs env (List.take arr.length arr).reverse = s at he
            cases s with
            | found entry =>
              simp only [scanOutcome] at he
              split at he
              · exact ⟨entry, by simpa using he⟩
              · simp at he
            | lookupRejected => simp [scanOutcome] at he
            | pastTheEnd => simp [scanOutcome] at he
          · simp at he
      · simp at he
  · simp at he

theorem captureFirstResponse_rejected (config : Config) (roleIDs : List String) (env : Env)
    (message : Message)
    (h : message.channel.type ≠ ChannelType.PublicThread ∨
      ∀ member, message.member = some member → hasAny member.roles roleIDs = false) :
    (captureFirstResponse config roleIDs env message).effects = [] := by
  unfold captureFirstResponse
  split
  · rename_i hty
    rcases h with h | h
    · exact absurd hty h
    · split
      · rfl
      · rename_i member hm
        simp [h member hm]
  · rfl

theorem captureFirstResponse_reached (config : Config) (roleIDs : List String) (env : Env)
    (message : Message) (member : GuildMember) (fetched : List (String × Message))
    (hty : message.channel.type = ChannelType.PublicThread)
    (hm : message.member = some member) (hs : hasAny member.roles roleIDs = true)
    (hf : env.fetchMessages = some fetched) :
    captureFirstResponse config roleIDs env message
      = if fetched.length ≠ 0 then
          scanOutcome config message (scanEnd roleIDs env fetched.reverse)
        else { effects := [], error := none } := by
  unfold captureFirstResponse
  simp only [hty, hm, hs, hf, if_true]
  split_ifs
  · rw [scanLoop_eq _ _ _ _ _ _ (Nat.le_refl _), List.take_length]
  · rfl

theorem closeCommand_accepted (config : Config) (roleIDs : List String) (env : Env)
    (message : Message) (tags : List String) (member : GuildMember)
    (hclose : isCloseCommand config message.content = true) (hdel : env.deleteOk = true)
    (hty : message.channel.type = ChannelType.PublicThread)
    (hm : message.member = some member) (hs : hasAny member.roles roleIDs = true) :
    closeCommand config roleIDs env message tags
      = { effects :=
            [Effect.delete message.id,
             Effect.edit message.channel.id
               { name := none, appliedTags := some tags, archived := some true, locked := none },
             Effect.sendData (resolutionRow config message member) config.datasheet_resolve],
          error := none } := by
  simp [closeCommand, hclose, hdel, hty, hm, hs]

theorem closeCommand_rejected (config : Config) (roleIDs : List String) (env : Env)
    (message : Message) (tags : List String)
    (hclose : isCloseCommand config message.content = true)
    (h : message.channel.type ≠ ChannelType.PublicThread ∨
      ∀ member, message.member = some member → hasAny member.roles roleIDs = false) :
    (closeCommand config roleIDs env message tags).effects = [Effect.delete message.id] := by
  unfold closeCommand
  rw [if_pos hclose]
  split
  · split
    · rename_i hty
      rcases h with h | h
      · exact absurd hty h
      · split
        · rfl
        · rename_i member hm
          simp [h member hm]
    · rfl
  · rfl

theorem closeCommand_delete_rejected (config : Config) (roleIDs : List String) (env : Env)
    (message : Message) (tags : List String)
    (hclose : isCloseCommand config message.content = true) (hdel : env.deleteOk = false) :
    closeCommand config roleIDs env message tags
      = { effects := [Effect.delete message.id], error := some JsError.rejected } := by
  simp [closeCommand, hclose, hdel]

theorem closeCommand_not (config : Config) (roleIDs : List String) (env : Env)
    (message : Message) (tags : List String)
    (hclose : isCloseCommand config message.content = false) :
    closeCommand config roleIDs env message tags = { effects := [], error := none } := by
  simp [closeCommand, hclose]

theorem replies_are_replies (config : Config) (env : Env) (message : Message) :
    ∀ e ∈ replies config env message, ∃ id text, e = Effect.reply id text := by
  intro e he
  unfold replies at he
  rcases List.mem_append.1 he with h | h
  · split at h
    · exact ⟨_, _, by simpa using h⟩
    · simp at h
  · split at h
    · exact ⟨_, _, by simpa using h⟩
    · simp at h

theorem filter_replies (config : Config) (env : Env) (message : Message) (p : Effect → Bool)
    (hp : ∀ id text, p (Effect.reply id text) = false) :
    (replies config env message).filter p = [] := by
  rw [List.filter_eq_nil_iff]
  intro e he
  obtain ⟨id, text, rfl⟩ := replies_are_replies config env message e he
  simp [hp]

theorem filterMap_replies {β : Type} (config : Config) (env : Env) (message : Message)
    (f : Effect → Option β) (hf : ∀ id text, f (Effect.reply id text) = none) :
    (replies config env message).filterMap f = [] := by
  rw [List.filterMap_eq_nil_iff]
  intro e he
  obtain ⟨id, text, rfl⟩ := replies_are_replies config env message e he
  exact hf id text

theorem filter_capture (config : Config) (roleIDs : List String) (env : Env)
    (message : Message) (p : Effect → Bool)
    (hp : ∀ row sheet, p (Effect.sendData row sheet) = false) :
    (captureFirstResponse config roleIDs env message).effects.filter p = [] := by
  rw [List.filter_eq_nil_iff]
  intro e he
  obtain ⟨entry, rfl⟩ := captureFirstResponse_effects config roleIDs env message e he
  simp [hp]

theorem resolutionRows_capture (config : Config) (roleIDs : List String) (env : Env)
    (message : Message) :
    (captureFirstResponse config roleIDs env message).effects.filterMap
      (fun e =>
        match e with
        | Effect.sendData (Row.resolution p t r) sheet => some (Row.resolution p t r, sheet)
        | _ => none) = [] := by
  rw [List.filterMap_eq_nil_iff]
  intro e he
  obtain ⟨entry, rfl⟩ := captureFirstResponse_effects config roleIDs env message e he
  rfl

/-! ## The close command -/

theorem rejected_effects (config : Config) (roleIDs : List String) (env : Env)
    (message : Message)
    (hrej : message.channel.type ≠ ChannelType.PublicThread ∨
      ∀ member, message.member = some member → hasAny member.roles roleIDs = false) :
    ∀ e ∈ (messageCreate config roleIDs env message).effects,
      (∃ id text, e = Effect.reply id text) ∨ e = Effect.delete message.id := by
  intro e he
  unfold messageCreate at he
  split at he
  · simp at he
  · rw [andThen_effects] at he
    simp only [if_true] at he
    rcases List.mem_append.1 he with h | h
    · exact Or.inl (replies_are_replies config env message e h)
    · split at h
      · simp at h
      · split at h
        · simp at h
        · unfold forumPost at h
          split at h
          · simp at h
          · rw [andThen_effects, captureFirstResponse_rejected config roleIDs env message hrej]
              at h
            simp only [List.append_nil, ite_self] at h
            unfold closeCommand at h
            split at h
            · split at h
              · split at h
                · rename_i hty
                  rcases hrej with hr | hr
                  · exact absurd hty hr
                  · split at h
                    · exact Or.inr (by simpa using h)
                    · rename_i member hm
                      rw [if_neg (by simp [hr member hm])] at h
                      exact Or.inr (by simpa using h)
                · exact Or.inr (by simpa using h)
              · exact Or.inr (by simpa using h)
            · simp at h

/-- C2 (as amended): for every close command, if the invoking member's roles do not
intersect the staff roster or the channel is not a public thread, the handler
requests no thread edit and hands no row to `sendData`.  On a forum thread it
requests the deletion of the command message, which precedes the role and type
check, when the author is not a bot and the catalog holds the resolution tag; for a
bot author, or a catalog without the resolution tag, it requests no deletion. -/
theorem rejected_close_command (config : Config) (roleIDs : List String) (env : Env)
    (message : Message)
    (hclose : isCloseCommand config message.content = true)
    (hrej : message.channel.type ≠ ChannelType.PublicThread ∨
      ∀ member, message.member = some member → hasAny member.roles roleIDs = false) :
    edits (messageCreate config roleIDs env message) = [] ∧
    sentRows (messageCreate config roleIDs env message) = [] ∧
    (∀ post availableTags tag, message.author.bot = false → message.post = some post →
      post.availableTags = some availableTags →
      (resolutionTag config availableTags)[0]? = some tag →
      deletions (messageCreate config roleIDs env message) = [Effect.delete message.id]) ∧
    (message.author.bot = true →
      mutations (messageCreate config roleIDs env message) = []) ∧
    (∀ post availableTags, message.post = some post →
      post.availableTags = some availableTags →
      (resolutionTag config availableTags)[0]? = none →
      mutations (messageCreate config roleIDs env message) = []) := by
  have hall := rejected_effects config roleIDs env message hrej
  refine ⟨?_, ?_, ?_, ?_, ?_⟩
  · unfold edits
    rw [List.filter_eq_nil_iff]
    intro e he
    rcases hall e he with ⟨id, text, rfl⟩ | rfl <;> simp
  · unfold sentRows
    rw [List.filterMap_eq_nil_iff]
    intro e he
    rcases hall e he with ⟨id, text, rfl⟩ | rfl <;> rfl
  · intro post availableTags tag hbot hpost htags htag
    rw [messageCreate_forum config roleIDs env message post availableTags hbot hpost htags,
      forumPost_tag config roleIDs env message availableTags tag htag]
    unfold deletions
    rw [andThen_effects, andThen_effects, captureFirstResponse_rejected _ _ _ _ hrej,
      closeCommand_rejected _ _ _ _ _ hclose hrej]
    simp only [if_true, List.append_nil, ite_self, List.filter_append]
    rw [filter_replies config env message _ (fun _ _ => rfl)]
    rfl
  · intro hbot
    simp [messageCreate, hbot, mutations]
  · intro post availableTags hpost htags htag
    cases hbot : message.author.bot with
    | true => simp [messageCreate, hbot, mutations]
    | false =>
      rw [messageCreate_forum config roleIDs env message post availableTags hbot hpost htags]
      unfold mutations
      rw [andThen_effects]
      simp only [if_true, List.filter_append, forumPost, htag, List.filter_nil,
        List.append_nil]
      exact filter_replies config env message _ (fun _ _ => rfl)

/-- C3 (as amended): a close command of a staff member who is not a bot, in a public
forum thread whose catalog holds the resolution tag, hands exactly one resolution
row to `sendData` when the awaited deletion of the command resolves: for the
resolve sheet, with the thread id, the formatted creation time of the command and
the username of the first mentioned user, or of the invoking member when nobody is
mentioned.  When the deletion rejects, the handler ends there and no row is sent. -/
theorem accepted_close_resolution (config : Config) (roleIDs : List String) (env : Env)
    (message : Message) (post : ParentChannel) (availableTags : List ForumTag)
    (tag : ForumTag) (member : GuildMember)
    (hbot : message.author.bot = false) (hpost : message.post = some post)
    (htags : post.availableTags = some availableTags)
    (htag : (resolutionTag config availableTags)[0]? = some tag)
    (hclose : isCloseCommand config message.content = true)
    (hty : message.channel.type = ChannelType.PublicThread)
    (hm : message.member = some member) (hs : hasAny member.roles roleIDs = true) :
    (env.deleteOk = true →
      resolutionRows (messageCreate config roleIDs env message)
        = [(Row.resolution message.channel.id (formatTime config message.createdTimestamp)
              (match message.mentions.users.head? with
               | some first => first.username
               | none => member.user.username),
            config.datasheet_resolve)]) ∧
    (env.deleteOk = false →
      resolutionRows (messageCreate config roleIDs env message) = [] ∧
      sentRows (messageCreate config roleIDs env message) = [] ∧
      (messageCreate config roleIDs env message).error = some JsError.rejected) := by
  rw [messageCreate_forum config roleIDs env message post availableTags hbot hpost htags,
    forumPost_tag config roleIDs env message availableTags tag htag]
  constructor
  · intro hdel
    rw [closeCommand_accepted config roleIDs env message _ member hclose hdel hty hm hs]
    unfold resolutionRows
    rw [andThen_effects, andThen_effects]
    simp only [if_true, List.filterMap_append]
    rw [filterMap_replies config env message _ (fun _ _ => rfl),
      resolutionRows_capture config roleIDs env message]
    unfold resolutionRow
    cases message.mentions.users.head? <;> rfl
  · intro hdel
    rw [closeCommand_delete_rejected config roleIDs env message _ hclose hdel]
    refine ⟨?_, ?_, ?_⟩
    · unfold resolutionRows
      rw [andThen_effects]
      simp only [if_true, List.filterMap_append]
      rw [filterMap_replies config env message _ (fun _ _ => rfl)]
      rfl
    · unfold sentRows
      rw [andThen_effects]
      simp only [if_true, List.filterMap_append]
      rw [filterMap_replies config env message _ (fun _ _ => rfl)]
      rfl
    · rw [andThen_error]
      rfl

/-- C5 (as amended): a close command of a staff member who is not a bot, in a public
forum thread whose catalog holds the resolution tag, changes the platform state,
when the awaited deletion of the command resolves, by two requests in this order:
the deletion of the command message, then one thread edit carrying only the
consolidated tag list and `archived: true`.  Applied to any channel, that edit
leaves every other field as it was, and the consolidated list is the resolved tag
followed by the other tags of the thread, without duplicates.  When the deletion
rejects, the handler ends there and requests no edit. -/
theorem accepted_close_mutations (config : Config) (roleIDs : List String) (env : Env)
    (message : Message) (post : ParentChannel) (availableTags : List ForumTag)
    (tag : ForumTag) (member : GuildMember)
    (hbot : message.author.bot = false) (hpost : message.post = some post)
    (htags : post.availableTags = some availableTags)
    (htag : (resolutionTag config availableTags)[0]? = some tag)
    (hclose : isCloseCommand config message.content = true)
    (hty : message.channel.type = ChannelType.PublicThread)
    (hm : message.member = some member) (hs : hasAny member.roles roleIDs = true) :
    (env.deleteOk = true →
      mutations (messageCreate config roleIDs env message)
        = [Effect.delete message.id,
           Effect.edit message.channel.id
             { name := none,
               appliedTags := some (consolidate tag.id message.channel.appliedTags),
               archived := some true, locked := none }]) ∧
    (env.deleteOk = false →
      mutations (messageCreate config roleIDs env message) = [Effect.delete message.id] ∧
      edits (messageCreate config roleIDs env message) = [] ∧
      (messageCreate config roleIDs env message).error = some JsError.rejected) ∧
    (∀ c : Channel,
      applyEdit c
          { name := none,
            appliedTags := some (consolidate tag.id message.channel.appliedTags),
            archived := some true, locked := none }
        = { c with
            appliedTags := consolidate tag.id message.channel.appliedTags,
            archived := true }) ∧
    ∃ rest : List String,
      consolidate tag.id message.channel.appliedTags = tag.id :: rest ∧ rest.Nodup ∧
      ∀ x, x ∈ rest ↔ x ∈ message.channel.appliedTags ∧ x ≠ tag.id := by
  refine ⟨?_, ?_, fun c => rfl, ?_⟩
  · intro hdel
    rw [messageCreate_forum config roleIDs env message post availableTags hbot hpost htags,
      forumPost_tag config roleIDs env message availableTags tag htag,
      closeCommand_accepted config roleIDs env message _ member hclose hdel hty hm hs]
    unfold mutations
    rw [andThen_effects, andThen_effects]
    simp only [if_true, List.filter_append]
    rw [filter_replies config env message _ (fun _ _ => rfl),
      filter_capture config roleIDs env message _ (fun _ _ => rfl)]
    rfl
  · intro hdel
    rw [messageCreate_forum config roleIDs env message post availableTags hbot hpost htags,
      forumPost_tag config roleIDs env message availableTags tag htag,
      closeCommand_delete_rejected config roleIDs env message _ hclose hdel]
    refine ⟨?_, ?_, ?_⟩
    · unfold mutations
      rw [andThen_effects]
      simp only [if_true, List.filter_append]
      rw [filter_replies config env message _ (fun _ _ => rfl)]
      rfl
    · unfold edits
      rw [andThen_effects]
      simp only [if_true, List.filter_append]
      rw [filter_replies config env message _ (fun _ _ => rfl)]
      rfl
    · rw [andThen_error]
      rfl
  · obtain ⟨rest, h1, h2, h3, _⟩ := consolidate_eq tag.id message.channel.appliedTags
    exact ⟨rest, h1, h3, h2⟩

/-- C8: on a forum thread whose catalog has no tag named as the configured resolution
tag, the lookup of line 109 finds nothing and the handler ends in a `TypeError`
having requested no deletion and no thread edit and handed no row to `sendData`:
its only effects are the replies of lines 89-96. -/
theorem missing_tag_fails_first (config : Config) (roleIDs : List String) (env : Env)
    (message : Message) (post : ParentChannel) (availableTags : List ForumTag)
    (hbot : message.author.bot = false) (hpost : message.post = some post)
    (htags : post.availableTags = some availableTags)
    (hnone : ∀ tag ∈ availableTags, tag.name ≠ config.resolution_tag_name) :
    (resolutionTag config availableTags)[0]? = none ∧
    (messageCreate config roleIDs env message).error = some JsError.typeError ∧
    (messageCreate config roleIDs env message).effects = replies config env message ∧
    deletions (messageCreate config roleIDs env message) = [] ∧
    edits (messageCreate config roleIDs env message) = [] ∧
    sentRows (messageCreate config roleIDs env message) = [] := by
  have hnil : resolutionTag config availableTags = [] := by
    unfold resolutionTag
    rw [List.filter_eq_nil_iff]
    intro tag htag
    simpa using hnone tag htag
  have hrun : messageCreate config roleIDs env message
      = { effects := replies config env message, error := some JsError.typeError } := by
    rw [messageCreate_forum config roleIDs env message post availableTags hbot hpost htags]
    simp [forumPost, hnil, Outcome.andThen]
  refine ⟨by simp [hnil], by rw [hrun], by rw [hrun], ?_, ?_, ?_⟩
  · rw [hrun]
    exact filter_replies config env message _ (fun _ _ => rfl)
  · rw [hrun]
    exact filter_replies config env message _ (fun _ _ => rfl)
  · rw [hrun]
    exact filterMap_replies config env message _ (fun _ _ => rfl)

/-- C10: on a forum thread whose catalog holds the resolution tag, the handler treats
a message as a close command (it requests its deletion) exactly when the text
starts with the configured command text and contains `close` somewhere; so the
text made of the command text followed by `disclose`, sent by a staff member in a
public thread, is deleted, the thread is archived and a resolution row is sent. -/
theorem close_command_recognition (config : Config) (roleIDs : List String) (env : Env)
    (message : Message) (post : ParentChannel) (availableTags : List ForumTag)
    (tag : ForumTag)
    (hbot : message.author.bot = false) (hpost : message.post = some post)
    (htags : post.availableTags = some availableTags)
    (htag : (resolutionTag config availableTags)[0]? = some tag) :
    (Effect.delete message.id ∈ (messageCreate config roleIDs env message).effects ↔
      (Config.command_prefix config).data <+: message.content.data ∧
        "close".data <:+: message.content.data) ∧
    ∀ member, message.content = Config.command_prefix config ++ "disclose" →
      env.deleteOk = true → message.channel.type = ChannelType.PublicThread →
      message.member = some member → hasAny member.roles roleIDs = true →
      mutations (messageCreate config roleIDs env message)
        = [Effect.delete message.id,
           Effect.edit message.channel.id
             { name := none,
               appliedTags := some (consolidate tag.id message.channel.appliedTags),
               archived := some true, locked := none }] ∧
      resolutionRows (messageCreate config roleIDs env message)
        = [(resolutionRow config message member, config.datasheet_resolve)] := by
  have hrun := messageCreate_forum config roleIDs env message post availableTags hbot hpost htags
  rw [forumPost_tag config roleIDs env message availableTags tag htag] at hrun
  have hiff : isCloseCommand config message.content = true ↔
      ((Config.command_prefix config).data <+: message.content.data ∧
        "close".data <:+: message.content.data) := by
    unfold isCloseCommand
    rw [Bool.and_eq_true, startsWith_iff, includes_iff]
  constructor
  · rw [← hiff, hrun, andThen_effects, andThen_effects]
    simp only [if_true]
    constructor
    · intro hmem
      by_contra hc
      rw [closeCommand_not config roleIDs env message _ (by simpa using hc)] at hmem
      simp only [if_true, List.nil_append, List.mem_append] at hmem
      rcases hmem with h | h
      · obtain ⟨id, text, he⟩ := replies_are_replies config env message _ h
        cases he
      · obtain ⟨entry, he⟩ := captureFirstResponse_effects config roleIDs env message _ h
        cases he
    · intro hc
      refine List.mem_append_right _ ?_
      have hhead : Effect.delete message.id ∈
          (closeCommand config roleIDs env message
            (consolidate tag.id message.channel.appliedTags)).effects := by
        unfold closeCommand
        rw [if_pos hc]
        split
        · split
          · split
            · simp
            · split <;> simp
          · simp
        · simp
      split
      · exact List.mem_append_left _ hhead
      · exact hhead
  · intro member hcontent hdel hty hm hs
    have hclose : isCloseCommand config message.content = true := by
      rw [hiff, hcontent]
      refine ⟨?_, ?_⟩
      · exact ⟨"disclose".data, rfl⟩
      · exact ⟨(Config.command_prefix config).data ++ "dis".data, [], by
          simp [String.data_append]⟩
    rw [hrun, closeCommand_accepted config roleIDs env message _ member hclose hdel hty hm hs]
    constructor
    · unfold mutations
      rw [andThen_effects, andThen_effects]
      simp only [if_true, List.filter_append]
      rw [filter_replies config env message _ (fun _ _ => rfl),
        filter_capture config roleIDs env message _ (fun _ _ => rfl)]
      rfl
    · unfold resolutionRows
      rw [andThen_effects, andThen_effects]
      simp only [if_true, List.filterMap_append]
      rw [filterMap_replies config env message _ (fun _ _ => rfl),
        resolutionRows_capture config roleIDs env message]
      unfold resolutionRow
      cases message.mentions.users.head? <;> rfl

/-! ## First-response detection -/

theorem capture_rows_found (config : Config) (roleIDs : List String) (env : Env)
    (message : Message)
    (h : firstResponseRows (captureFirstResponse config roleIDs env message) ≠ []) :
    ∃ fetched e, env.fetchMessages = some fetched ∧
      scanEnd roleIDs env fetched.reverse = ScanEnd.found e ∧ message.id = e.1 := by
  unfold captureFirstResponse at h
  split at h
  · split at h
    · exact absurd rfl h
    · split at h
      · split at h
        · exact absurd rfl h
        · rename_i fetched hf
          split at h
          · rw [scanLoop_eq _ _ _ _ _ _ (Nat.le_refl _), List.take_length,
              firstResponseRows_scanOutcome] at h
            cases hs : scanEnd roleIDs env fetched.reverse with
            | found e =>
              rw [hs] at h
              simp only at h
              by_cases hid : message.id = e.1
              · exact ⟨fetched, e, hf, hs, hid⟩
              · rw [if_neg hid] at h
                exact absurd rfl h
            | lookupRejected =>
              rw [hs] at h
              exact absurd rfl h
            | pastTheEnd =>
              rw [hs] at h
              exact absurd rfl h
          · exact absurd rfl h
      · exact absurd rfl h
  · exact absurd rfl h

theorem messageCreate_rows_found (config : Config) (roleIDs : List String) (env : Env)
    (message : Message)
    (h : firstResponseRows (messageCreate config roleIDs env message) ≠ []) :
    ∃ fetched e, env.fetchMessages = some fetched ∧
      scanEnd roleIDs env fetched.reverse = ScanEnd.found e ∧ message.id = e.1 := by
  unfold messageCreate at h
  split at h
  · exact absurd rfl h
  · rw [firstResponseRows_andThen, firstResponseRows_replies] at h
    simp only [if_true, List.nil_append] at h
    split at h
    · exact absurd rfl h
    · split at h
      · exact absurd rfl h
      · unfold forumPost at h
        split at h
        · exact absurd rfl h
        · rw [firstResponseRows_andThen, firstResponseRows_closeCommand] at h
          simp only [List.nil_append] at h
          split at h
          · exact capture_rows_found config roleIDs env message h
          · exact absurd rfl h

theorem messageCreate_rows_reached (config : Config) (roleIDs : List String) (env : Env)
    (message : Message) (post : ParentChannel) (availableTags : List ForumTag)
    (tag : ForumTag) (member : GuildMember) (fetched : List (String × Message))
    (hbot : message.author.bot = false) (hpost : message.post = some post)
    (htags : post.availableTags = some availableTags)
    (htag : (resolutionTag config availableTags)[0]? = some tag)
    (hdel : isCloseCommand config message.content = true → env.deleteOk = true)
    (hty : message.channel.type = ChannelType.PublicThread)
    (hm : message.member = some member) (hs : hasAny member.roles roleIDs = true)
    (hf : env.fetchMessages = some fetched) :
    firstResponseRows (messageCreate config roleIDs env message)
      = firstResponseRows
          (if fetched.length ≠ 0 then
            scanOutcome config message (scanEnd roleIDs env fetched.reverse)
          else { effects := [], error := none }) ∧
    (messageCreate config roleIDs env message).error
      = (if fetched.length ≠ 0 then
          scanOutcome config message (scanEnd roleIDs env fetched.reverse)
        else { effects := [], error := none }).error := by
  have hcl : (closeCommand config roleIDs env message
      (consolidate tag.id message.channel.appliedTags)).error = none := by
    cases hc : isCloseCommand config message.content with
    | false => rw [closeCommand_not _ _ _ _ _ hc]
    | true => rw [closeCommand_accepted _ _ _ _ _ member hc (hdel hc) hty hm hs]
  rw [messageCreate_forum config roleIDs env message post availableTags hbot hpost htags,
    forumPost_tag config roleIDs env message availableTags tag htag]
  constructor
  · rw [firstResponseRows_andThen, firstResponseRows_replies, firstResponseRows_andThen,
      firstResponseRows_closeCommand, hcl,
      captureFirstResponse_reached config roleIDs env message member fetched hty hm hs hf]
    simp
  · rw [andThen_error, andThen_error, hcl,
      captureFirstResponse_reached config roleIDs env message member fetched hty hm hs hf]
    simp

/-- C1 (as amended): when the handler reaches the scan with a fetched history whose
entry `e` is the oldest one authored by a holder of a staff role, bot or not (every
older entry has an author the member lookup finds without a staff role), the scan
ends at `e`, and a first-response row is sent exactly when the id of the incoming
message is the key of `e`; the row is then the one built from `e`. -/
theorem first_response_selected (config : Config) (roleIDs : List String) (env : Env)
    (message : Message) (post : ParentChannel) (availableTags : List ForumTag)
    (tag : ForumTag) (member : GuildMember)
    (newer older : List (String × Message)) (e : String × Message)
    (hbot : message.author.bot = false) (hpost : message.post = some post)
    (htags : post.availableTags = some availableTags)
    (htag : (resolutionTag config availableTags)[0]? = some tag)
    (hdel : isCloseCommand config message.content = true → env.deleteOk = true)
    (hty : message.channel.type = ChannelType.PublicThread)
    (hm : message.member = some member) (hs : hasAny member.roles roleIDs = true)
    (hf : env.fetchMessages = some (newer ++ e :: older))
    (holder : ∀ x ∈ older, plainAuthored roleIDs env x = true)
    (he : staffAuthored roleIDs env e = true) :
    scanLoop config roleIDs env message (newer ++ e :: older) (newer ++ e :: older).length
      = scanOutcome config message (ScanEnd.found e) ∧
    firstResponseRows (messageCreate config roleIDs env message)
      = (if message.id = e.1 then
          [(firstResponseRow config message e, config.datasheet_response)]
        else []) ∧
    (messageCreate config roleIDs env message).error = none := by
  have hend : scanEnd roleIDs env (newer ++ e :: older).reverse = ScanEnd.found e := by
    rw [List.reverse_append, List.reverse_cons, List.append_assoc,
      scanEnd_append_plain roleIDs env _ _ (fun x hx => holder x (List.mem_reverse.1 hx))]
    exact scanEnd_cons_staff roleIDs env e _ he
  have hlen : (newer ++ e :: older).length ≠ 0 := by simp
  obtain ⟨hrows, herr⟩ := messageCreate_rows_reached config roleIDs env message post
    availableTags tag member _ hbot hpost htags htag hdel hty hm hs hf
  refine ⟨?_, ?_, ?_⟩
  · rw [scanLoop_eq _ _ _ _ _ _ (Nat.le_refl _), List.take_length, hend]
  · rw [hrows, if_pos hlen, hend, firstResponseRows_scanOutcome]
  · rw [herr, if_pos hlen, hend]
    simp only [scanOutcome]
    split_ifs <;> rfl

/-- C7 (as amended): if the handler sends a first-response row for message `a`
against the fetched history `H` and for message `b` against a history that extends
`H` by newer entries only, and the member lookups give the same roles in both runs,
then `a` and `b` have the same id. -/
theorem first_response_unique (config : Config) (roleIDs : List String) (env env' : Env)
    (a b : Message) (H N : List (String × Message))
    (hH : env.fetchMessages = some H) (hH' : env'.fetchMessages = some (N ++ H))
    (hmem : env'.fetchMember = env.fetchMember)
    (ha : firstResponseRows (messageCreate config roleIDs env a) ≠ [])
    (hb : firstResponseRows (messageCreate config roleIDs env' b) ≠ []) :
    a.id = b.id := by
  obtain ⟨fa, ea, hfa, hsa, hida⟩ := messageCreate_rows_found config roleIDs env a ha
  obtain ⟨fb, eb, hfb, hsb, hidb⟩ := messageCreate_rows_found config roleIDs env' b hb
  rw [hH] at hfa
  rw [hH'] at hfb
  cases hfa
  cases hfb
  rw [scanEnd_congr roleIDs env env' hmem, List.reverse_append,
    scanEnd_found_append roleIDs env _ _ ea hsa] at hsb
  cases hsb
  rw [hida, hidb]

/-- The scan on a non-empty history none of whose authors holds a staff role runs
past the start of the array and ends in a `TypeError`. -/
theorem captureFirstResponse_no_staff (config : Config) (roleIDs : List String) (env : Env)
    (message : Message) (member : GuildMember) (fetched : List (String × Message))
    (hty : message.channel.type = ChannelType.PublicThread)
    (hm : message.member = some member) (hs : hasAny member.roles roleIDs = true)
    (hf : env.fetchMessages = some fetched) (hne : fetched ≠ [])
    (hplain : ∀ x ∈ fetched, plainAuthored roleIDs env x = true) :
    captureFirstResponse config roleIDs env message
      = { effects := [], error := some JsError.typeError } := by
  rw [captureFirstResponse_reached config roleIDs env message member fetched hty hm hs hf,
    if_pos (by simpa using hne),
    scanEnd_no_staff roleIDs env _ (fun x hx => hplain x (List.mem_reverse.1 hx))]
  rfl

/-! ## The calendar fields -/

theorem YearFromTime_spec (t : Int) :
    DayFromYear (YearFromTime t) ≤ Day t ∧ Day t < DayFromYear (YearFromTime t + 1) := by
  unfold YearFromTime
  simp only
  split_ifs with h1 h2
  · unfold DayFromYear at *
    omega
  · rw [sub_add_cancel]
    refine ⟨?_, h2⟩
    unfold DayFromYear at *
    omega
  · unfold DayFromYear at *
    omega

theorem DayFromYear_succ (y : Int) : DayFromYear (y + 1) = DayFromYear y + DaysInYear y := by
  unfold DayFromYear DaysInYear
  split_ifs <;> omega

theorem DayWithinYear_range (t : Int) :
    0 ≤ DayWithinYear t ∧ DayWithinYear t < DaysInYear (YearFromTime t) := by
  have h := YearFromTime_spec t
  rw [DayFromYear_succ] at h
  unfold DayWithinYear
  omega

theorem daysFromCivil_early (y m dd : Int) (hm : m = 1 ∨ m = 2) :
    daysFromCivil y m dd = DayFromYear y + (m - 1) * 31 + dd - 1 := by
  unfold daysFromCivil DayFromYear
  have h1 : m ≤ 2 := by omega
  have h2 : ¬ 2 < m := by omega
  simp only [h1, h2, if_true, if_false]
  omega

theorem daysFromCivil_late (y m dd : Int) (h3 : 3 ≤ m) (h12 : m ≤ 12) :
    daysFromCivil y m dd
      = DayFromYear y + 59 + (if DaysInYear y = 366 then 1 else 0)
        + (153 * (m - 3) + 2) / 5 + dd - 1 := by
  unfold daysFromCivil DayFromYear DaysInYear
  have h1 : ¬ m ≤ 2 := by omega
  have h2 : 2 < m := by omega
  simp only [h1, h2, if_true, if_false]
  split_ifs <;> omega

theorem daysInMonth_eq (y m : Int) :
    daysInMonth y m
      = if m = 2 then 28 + (if DaysInYear y = 366 then 1 else 0)
        else if m = 4 ∨ m = 6 ∨ m = 9 ∨ m = 11 then 30 else 31 := by
  unfold daysInMonth isLeapYear DaysInYear
  by_cases h4 : y % 4 = 0 <;> by_cases h100 : y % 100 = 0 <;> by_cases h400 : y % 400 = 0 <;>
    simp [h4, h100, h400]

theorem monthOfYearDay_bounds (w l m : Int) (h1 : w < 365 + l)
    (hm : monthOfYearDay w l = m) :
    0 ≤ m ∧ m ≤ 11 ∧ (m = 0 → w < 31) ∧ (m = 1 → 31 ≤ w ∧ w < 59 + l) ∧
    (2 ≤ m → 59 + l + (153 * (m - 2) + 2) / 5 ≤ w ∧ w < 59 + l + (153 * (m - 1) + 2) / 5) := by
  unfold monthOfYearDay at hm
  by_cases h0 : w < 31
  · rw [if_pos h0] at hm; omega
  · rw [if_neg h0] at hm
    by_cases h1 : w < 59 + l
    · rw [if_pos h1] at hm; omega
    · rw [if_neg h1] at hm
      by_cases h2 : w < 90 + l
      · rw [if_pos h2] at hm; omega
      · rw [if_neg h2] at hm
        by_cases h3 : w < 120 + l
        · rw [if_pos h3] at hm; omega
        · rw [if_neg h3] at hm
          by_cases h4 : w < 151 + l
          · rw [if_pos h4] at hm; omega
          · rw [if_neg h4] at hm
            by_cases h5 : w < 181 + l
            · rw [if_pos h5] at hm; omega
            · rw [if_neg h5] at hm
              by_cases h6 : w < 212 + l
              · rw [if_pos h6] at hm; omega
              · rw [if_neg h6] at hm
                by_cases h7 : w < 243 + l
                · rw [if_pos h7] at hm; omega
                · rw [if_neg h7] at hm
                  by_cases h8 : w < 273 + l
                  · rw [if_pos h8] at hm; omega
                  · rw [if_neg h8] at hm
                    by_cases h9 : w < 304 + l
                    · rw [if_pos h9] at hm; omega
                    · rw [if_neg h9] at hm
                      by_cases h10 : w < 334 + l
                      · rw [if_pos h10] at hm; omega
                      · rw [if_neg h10] at hm
                        omega

theorem dateOfYearDay_bounds (m w l dd : Int) (h11 : m ≤ 11)
    (hd : dateOfYearDay m w l = dd) :
    (m = 0 → dd = w + 1) ∧ (m = 1 → dd = w - 30) ∧
    (2 ≤ m → dd = w - 58 - l - (153 * (m - 2) + 2) / 5) := by
  unfold dateOfYearDay at hd
  by_cases h0 : m = 0
  · rw [if_pos h0] at hd; omega
  · rw [if_neg h0] at hd
    by_cases h1 : m = 1
    · rw [if_pos h1] at hd; omega
    · rw [if_neg h1] at hd
      by_cases h2 : m = 2
      · rw [if_pos h2] at hd; omega
      · rw [if_neg h2] at hd
        by_cases h3 : m = 3
        · rw [if_pos h3] at hd; omega
        · rw [if_neg h3] at hd
          by_cases h4 : m = 4
          · rw [if_pos h4] at hd; omega
          · rw [if_neg h4] at hd
            by_cases h5 : m = 5
            · rw [if_pos h5] at hd; omega
            · rw [if_neg h5] at hd
              by_cases h6 : m = 6
              · rw [if_pos h6] at hd; omega
              · rw [if_neg h6] at hd
                by_cases h7 : m = 7
                · rw [if_pos h7] at hd; omega
                · rw [if_neg h7] at hd
                  by_cases h8 : m = 8
                  · rw [if_pos h8] at hd; omega
                  · rw [if_neg h8] at hd
                    by_cases h9 : m = 9
                    · rw [if_pos h9] at hd; omega
                    · rw [if_neg h9] at hd
                      by_cases h10 : m = 10
                      · rw [if_pos h10] at hd; omega
                      · rw [if_neg h10] at hd
                        omega

theorem table_spec (y w l : Int) (h0 : 0 ≤ w) (h1 : w < 365 + l)
    (hl : l = if DaysInYear y = 366 then 1 else 0) :
    0 ≤ monthOfYearDay w l ∧ monthOfYearDay w l ≤ 11 ∧
    1 ≤ dateOfYearDay (monthOfYearDay w l) w l ∧
    dateOfYearDay (monthOfYearDay w l) w l ≤ daysInMonth y (monthOfYearDay w l + 1) ∧
    daysFromCivil y (monthOfYearDay w l + 1) (dateOfYearDay (monthOfYearDay w l) w l)
      = DayFromYear y + w := by
  generalize hm : monthOfYearDay w l = m
  generalize hd : dateOfYearDay m w l = dd
  obtain ⟨hm0, hm11, hb0, hb1, hb2⟩ := monthOfYearDay_bounds w l m h1 hm
  obtain ⟨hd0, hd1, hd2⟩ := dateOfYearDay_bounds m w l dd hm11 hd
  have hl01 : l = 0 ∨ l = 1 := by
    rw [hl]; split_ifs <;> simp
  refine ⟨hm0, hm11, ?_⟩
  rw [daysInMonth_eq y _, ← hl]
  by_cases c0 : m = 0
  · subst c0
    rw [daysFromCivil_early _ _ _ (Or.inl (by norm_num))]
    have := hb0 rfl
    have := hd0 rfl
    norm_num
    omega
  · by_cases c1 : m = 1
    · subst c1
      rw [daysFromCivil_early _ _ _ (Or.inr (by norm_num))]
      have := hb1 rfl
      have := hd1 rfl
      norm_num
      omega
    · have h2 : 2 ≤ m := by omega
      rw [daysFromCivil_late _ _ _ (by omega) (by omega), ← hl]
      have := hb2 h2
      have := hd2 h2
      have e1 : m + 1 - 3 = m - 2 := by ring
      rw [e1]
      have c2 : ¬ (m + 1 = 2) := by omega
      rw [if_neg c2]
      refine ⟨by omega, ?_, by omega⟩
      split_ifs with h30
      · omega
      · omega

theorem date_valid (t : Int) :
    1 ≤ MonthFromTime t + 1 ∧ MonthFromTime t + 1 ≤ 12 ∧ 1 ≤ DateFromTime t ∧
    DateFromTime t ≤ daysInMonth (YearFromTime t) (MonthFromTime t + 1) ∧
    daysFromCivil (YearFromTime t) (MonthFromTime t + 1) (DateFromTime t) = Day t := by
  have hr := DayWithinYear_range t
  have hd : Day t = DayFromYear (YearFromTime t) + DayWithinYear t := by
    unfold DayWithinYear; omega
  have hl : InLeapYear t = if DaysInYear (YearFromTime t) = 366 then 1 else 0 := rfl
  have hdays : DaysInYear (YearFromTime t) = 365 + InLeapYear t := by
    rw [hl]
    unfold DaysInYear
    split_ifs <;> omega
  obtain ⟨h1, h2, h3, h4, h5⟩ := table_spec (YearFromTime t) (DayWithinYear t) (InLeapYear t)
    hr.1 (by omega) hl
  unfold DateFromTime MonthFromTime
  rw [hd]
  exact ⟨by omega, by omega, h3, h4, h5⟩

theorem clock_valid (t : Int) :
    0 ≤ HourFromTime t ∧ HourFromTime t < 24 ∧ 0 ≤ MinFromTime t ∧ MinFromTime t < 60 ∧
    0 ≤ SecFromTime t ∧ SecFromTime t < 60 ∧
    ((Day t * 24 + HourFromTime t) * 60 + MinFromTime t) * 60 + SecFromTime t = t / 1000 := by
  unfold HourFromTime MinFromTime SecFromTime Day msPerDay
  omega

theorem YearFromTime_range (t : Int) (h0 : -62167219200000 ≤ t) (h1 : t < 253402300800000) :
    0 ≤ YearFromTime t ∧ YearFromTime t ≤ 9999 := by
  have h := YearFromTime_spec t
  have hd0 : -719528 ≤ Day t := by unfold Day msPerDay; omega
  have hd1 : Day t < 2932897 := by unfold Day msPerDay; omega
  unfold DayFromYear at h
  omega

/-! ## Decimal rendering -/

theorem toDigitsCore_step (fuel n : Nat) (ds : List Char) :
    Nat.toDigitsCore 10 (fuel + 1) n ds
      = if n / 10 = 0 then Nat.digitChar (n % 10) :: ds
        else Nat.toDigitsCore 10 fuel (n / 10) (Nat.digitChar (n % 10) :: ds) := by
  simp [Nat.toDigitsCore]

theorem repr_one (n : Nat) (h : n < 10) : Nat.repr n = String.mk [Nat.digitChar n] := by
  have h0 : n / 10 = 0 := by omega
  have h1 : n % 10 = n := by omega
  simp [Nat.repr, Nat.toDigits, toDigitsCore_step, h0, h1, List.asString]

theorem repr_two (n : Nat) (h1 : 10 ≤ n) (h2 : n < 100) :
    Nat.repr n = String.mk [Nat.digitChar (n / 10), Nat.digitChar (n % 10)] := by
  obtain ⟨k, rfl⟩ : ∃ k, n = k + 1 := ⟨n - 1, by omega⟩
  have h0 : (k + 1) / 10 ≠ 0 := by omega
  have h00 : (k + 1) / 10 / 10 = 0 := by omega
  have h3 : (k + 1) / 10 % 10 = (k + 1) / 10 := by omega
  simp only [Nat.repr, Nat.toDigits, toDigitsCore_step, h0, h00, h3, List.asString, if_true, if_false]

theorem repr_three (n : Nat) (h1 : 100 ≤ n) (h2 : n < 1000) :
    Nat.repr n = String.mk [Nat.digitChar (n / 100), Nat.digitChar (n / 10 % 10),
      Nat.digitChar (n % 10)] := by
  obtain ⟨k, rfl⟩ : ∃ k, n = k + 2 := ⟨n - 2, by omega⟩
  have h0 : (k + 2) / 10 ≠ 0 := by omega
  have h00 : (k + 2) / 10 / 10 ≠ 0 := by omega
  have h000 : (k + 2) / 10 / 10 / 10 = 0 := by omega
  have h3 : (k + 2) / 10 / 10 % 10 = (k + 2) / 100 := by omega
  simp only [Nat.repr, Nat.toDigits, toDigitsCore_step, h0, h00, h000, h3, List.asString, if_true, if_false]

theorem repr_four (n : Nat) (h1 : 1000 ≤ n) (h2 : n < 10000) :
    Nat.repr n = String.mk [Nat.digitChar (n / 1000), Nat.digitChar (n / 100 % 10),
      Nat.digitChar (n / 10 % 10), Nat.digitChar (n % 10)] := by
  obtain ⟨k, rfl⟩ : ∃ k, n = k + 3 := ⟨n - 3, by omega⟩
  have h0 : (k + 3) / 10 ≠ 0 := by omega
  have h00 : (k + 3) / 10 / 10 ≠ 0 := by omega
  have h000 : (k + 3) / 10 / 10 / 10 ≠ 0 := by omega
  have h0000 : (k + 3) / 10 / 10 / 10 / 10 = 0 := by omega
  have h3 : (k + 3) / 10 / 10 / 10 % 10 = (k + 3) / 1000 := by omega
  have h4 : (k + 3) / 10 / 10 % 10 = (k + 3) / 100 % 10 := by omega
  simp only [Nat.repr, Nat.toDigits, toDigitsCore_step, h0, h00, h000, h0000, h3, h4, List.asString, if_true, if_false]

theorem zeroFill_two (n : Int) (h0 : 0 ≤ n) (h1 : n < 100) :
    zeroFill n 2 = String.mk (twoDigits n) := by
  obtain ⟨k, rfl⟩ := Int.eq_ofNat_of_zero_le h0
  have hk : k < 100 := by omega
  have hs : toString (k : Int).natAbs = Nat.repr k := rfl
  unfold zeroFill twoDigits
  simp only [hs, h0, if_true, Int.toNat_ofNat]
  by_cases h10 : k < 10
  · have e1 : k / 10 = 0 := by omega
    have e2 : k % 10 = k := by omega
    rw [repr_one k h10, e1, e2]
    rfl
  · rw [repr_two k (by omega) hk]
    rfl

theorem zeroFill_four (n : Int) (h0 : 0 ≤ n) (h1 : n < 10000) :
    zeroFill n 4 = String.mk (fourDigits n) := by
  obtain ⟨k, rfl⟩ := Int.eq_ofNat_of_zero_le h0
  have hk : k < 10000 := by omega
  have hs : toString (k : Int).natAbs = Nat.repr k := rfl
  unfold zeroFill fourDigits
  simp only [hs, h0, if_true, Int.toNat_ofNat]
  by_cases h10 : k < 10
  · have e1 : k / 1000 = 0 := by omega
    have e2 : k / 100 % 10 = 0 := by omega
    have e3 : k / 10 % 10 = 0 := by omega
    have e4 : k % 10 = k := by omega
    rw [repr_one k h10, e1, e2, e3, e4]
    rfl
  · by_cases h100 : k < 100
    · have e1 : k / 1000 = 0 := by omega
      have e2 : k / 100 % 10 = 0 := by omega
      have e3 : k / 10 % 10 = k / 10 := by omega
      rw [repr_two k (by omega) h100, e1, e2, e3]
      rfl
    · by_cases h1000 : k < 1000
      · have e1 : k / 1000 = 0 := by omega
        have e2 : k / 100 % 10 = k / 100 := by omega
        rw [repr_three k (by omega) h1000, e1, e2]
        rfl
      · rw [repr_four k (by omega) hk]
        rfl

theorem toString_month (n : Int) (h0 : 0 ≤ n) (h1 : n < 100) :
    toString n
      = String.mk (if n < 10 then [Nat.digitChar n.toNat] else twoDigits n) := by
  obtain ⟨k, rfl⟩ := Int.eq_ofNat_of_zero_le h0
  have hk : k < 100 := by omega
  have hs : toString (k : Int) = Nat.repr k := rfl
  unfold twoDigits
  simp only [hs, Int.toNat_ofNat]
  by_cases h10 : k < 10
  · rw [repr_one k h10, if_pos (by omega)]
  · rw [repr_two k (by omega) hk, if_neg (by omega)]

/-! ## `formatTime` -/

theorem format_clock (m : Moment) (hv : m.valid = true)
    (h0 : -62167219200000 ≤ m.clock) (h1 : m.clock < 253402300800000) :
    ∃ c : CivilTime, IsCivilTimeOf m.clock c ∧ 0 ≤ c.year ∧ c.year ≤ 9999 ∧
      m.format = renderCivil c := by
  obtain ⟨d1, d2, d3, d4, d5⟩ := date_valid m.clock
  obtain ⟨c1, c2, c3, c4, c5, c6, c7⟩ := clock_valid m.clock
  obtain ⟨y0, y1⟩ := YearFromTime_range m.clock h0 h1
  have hdim : DateFromTime m.clock < 100 := by
    have : daysInMonth (YearFromTime m.clock) (MonthFromTime m.clock + 1) ≤ 31 := by
      unfold daysInMonth
      split_ifs <;> omega
    omega
  refine ⟨{ year := YearFromTime m.clock, month := MonthFromTime m.clock + 1,
            day := DateFromTime m.clock, hour := HourFromTime m.clock,
            minute := MinFromTime m.clock, second := SecFromTime m.clock }, ?_, y0, y1, ?_⟩
  · unfold IsCivilTimeOf
    simp only
    rw [d5]
    exact ⟨d1, d2, d3, d4, c1, c2, c3, c4, c5, c6, c7⟩
  · have hrange : m.clock.natAbs ≤ 8640000000000000 := by omega
    unfold Moment.format renderCivil
    simp only [hv, hrange, decide_True, Bool.and_self, if_true]
    rw [toString_month _ (by omega) (by omega), zeroFill_two _ (by omega) hdim,
      zeroFill_four _ y0 (by omega), zeroFill_two _ c1 (by omega),
      zeroFill_two _ c3 (by omega), zeroFill_two _ c5 (by omega)]
    apply String.ext
    simp [String.data_append]

/-- C9 (as amended): for a timestamp `t` in the range of `Date`, `formatTime t` is
the rendering `M/DD/YYYY HH:mm:ss` of the UTC calendar date and time of the instant
`t` shifted by the configured offset `o`, read in minutes when `o` is at most -16
or at least 16 and in hours when `o` lies strictly between -16 and 16, provided the
shifted instant falls in the years 0 to 9999; `t = 0` with `o = 0` gives
`1/01/1970 00:00:00`. -/
theorem formatTime_spec (config : Config) (t : Int) (ht : t.natAbs ≤ 8640000000000000) :
    (16 ≤ config.utc_offset.natAbs →
      -62167219200000 ≤ t + config.utc_offset * 60000 →
      t + config.utc_offset * 60000 < 253402300800000 →
      ∃ c : CivilTime, IsCivilTimeOf (t + config.utc_offset * 60000) c ∧
        0 ≤ c.year ∧ c.year ≤ 9999 ∧ formatTime config t = renderCivil c) ∧
    (config.utc_offset.natAbs < 16 →
      -62167219200000 ≤ t + config.utc_offset * 3600000 →
      t + config.utc_offset * 3600000 < 253402300800000 →
      ∃ c : CivilTime, IsCivilTimeOf (t + config.utc_offset * 3600000) c ∧
        0 ≤ c.year ∧ c.year ≤ 9999 ∧ formatTime config t = renderCivil c) ∧
    (config.utc_offset = 0 → formatTime config 0 = "1/01/1970 00:00:00") := by
  have hv : (Moment.utc t).valid = true := by simpa [Moment.utc] using ht
  refine ⟨?_, ?_, ?_⟩
  · intro ho h0 h1
    have hclock : ((Moment.utc t).utcOffset config.utc_offset).clock
        = t + config.utc_offset * 60000 := by
      unfold Moment.utcOffset Moment.clock
      rw [if_pos hv, if_neg (by omega)]
      rfl
    have hvalid : ((Moment.utc t).utcOffset config.utc_offset).valid = true := by
      unfold Moment.utcOffset
      rw [if_pos hv]
      exact hv
    have := format_clock _ hvalid (by rw [hclock]; exact h0) (by rw [hclock]; exact h1)
    rw [hclock] at this
    exact this
  · intro ho h0 h1
    have hclock : ((Moment.utc t).utcOffset config.utc_offset).clock
        = t + config.utc_offset * 3600000 := by
      unfold Moment.utcOffset Moment.clock
      rw [if_pos hv, if_pos ho]
      show t + config.utc_offset * 60 * 60000 = _
      omega
    have hvalid : ((Moment.utc t).utcOffset config.utc_offset).valid = true := by
      unfold Moment.utcOffset
      rw [if_pos hv]
      exact hv
    have := format_clock _ hvalid (by rw [hclock]; exact h0) (by rw [hclock]; exact h1)
    rw [hclock] at this
    exact this
  · intro ho
    unfold formatTime
    rw [ho]
    decide

/-! ## The statements at the sample data -/

/-- C1, refuted as stated: in `historyWithBot` the oldest message of a
staff-qualifying author who is not a bot is the answer of alice, yet the handler
sends no first-response row when that answer is the incoming message, because the
scan stops at the older message of the bot, which holds the staff role. -/
theorem first_response_bot_first :
    detectFirstResponseSpec Sample.roleIDs (Sample.env Sample.historyWithBot)
        Sample.historyWithBot = some ("602", Sample.answerByAlice) ∧
    firstResponseRows (messageCreate Sample.config Sample.roleIDs
        (Sample.env Sample.historyWithBot) Sample.answerByAlice) = [] := by
  decide

/-- The first-response statement on `historyLong`: the answer of alice sends the row, the
later answer of carol sends none. -/
theorem first_response_selected_witness :
    firstResponseRows (messageCreate Sample.config Sample.roleIDs
        (Sample.env Sample.historyLong) Sample.answerByAlice)
      = [(Row.firstResponse "500" "1/01/1970 00:00:02" "alice", "response")] ∧
    firstResponseRows (messageCreate Sample.config Sample.roleIDs
        (Sample.env Sample.historyLong) Sample.answerByCarol) = [] :=
  ⟨(first_response_selected Sample.config Sample.roleIDs (Sample.env Sample.historyLong)
      Sample.answerByAlice Sample.forum Sample.catalog Sample.resolvedTag Sample.alice
      [("603", Sample.answerByCarol)] [("601", Sample.msg "601" "it still burns" Sample.bob 1000)]
      ("602", Sample.answerByAlice) rfl rfl rfl rfl (fun _ => rfl) rfl rfl (by decide) rfl
      (by decide) (by decide)).2.1,
   (first_response_selected Sample.config Sample.roleIDs (Sample.env Sample.historyLong)
      Sample.answerByCarol Sample.forum Sample.catalog Sample.resolvedTag Sample.carol
      [("603", Sample.answerByCarol)] [("601", Sample.msg "601" "it still burns" Sample.bob 1000)]
      ("602", Sample.answerByAlice) rfl rfl rfl rfl (fun _ => rfl) rfl rfl (by decide) rfl
      (by decide) (by decide)).2.1⟩

/-- C2, refuted as stated: the close command of bob, who holds no staff
role, is deleted. -/
theorem rejected_close_is_deleted :
    isCloseCommand Sample.config Sample.closeByBob.content = true ∧
    hasAny Sample.bob.roles Sample.roleIDs = false ∧
    mutations (messageCreate Sample.config Sample.roleIDs (Sample.env [])
        Sample.closeByBob) = [Effect.delete "611"] := by
  decide

/-- The rejected close command of bob: no edit, no row, one deletion; in the forum
without the resolution tag, no deletion either. -/
theorem rejected_close_command_witness :
    edits (messageCreate Sample.config Sample.roleIDs (Sample.env []) Sample.closeByBob) = [] ∧
    sentRows (messageCreate Sample.config Sample.roleIDs (Sample.env []) Sample.closeByBob)
      = [] ∧
    deletions (messageCreate Sample.config Sample.roleIDs (Sample.env []) Sample.closeByBob)
      = [Effect.delete "611"] ∧
    mutations (messageCreate Sample.config Sample.roleIDs (Sample.env [])
        { Sample.closeByBob with post := some Sample.forumNoTag }) = [] :=
  have hbob : ∀ member, some Sample.bob = some member →
      hasAny member.roles Sample.roleIDs = false := fun member hm => by
    have hb : member = Sample.bob := (Option.some.inj hm).symm
    subst hb
    decide
  have h := rejected_close_command Sample.config Sample.roleIDs (Sample.env [])
    Sample.closeByBob (by decide) (Or.inr hbob)
  have h2 := rejected_close_command Sample.config Sample.roleIDs (Sample.env [])
    { Sample.closeByBob with post := some Sample.forumNoTag } (by decide) (Or.inr hbob)
  ⟨h.1, h.2.1, h.2.2.1 Sample.forum Sample.catalog Sample.resolvedTag rfl rfl rfl rfl,
    h2.2.2.2.2 Sample.forumNoTag [{ id := "11", name := "bug" }] rfl rfl rfl⟩

/-- C3, refuted as stated: alice, a staff member, sends the close command in a public
thread, the awaited deletion rejects, and no resolution row is sent. -/
theorem accepted_close_without_row :
    isCloseCommand Sample.config Sample.closeByAlice.content = true ∧
    Sample.closeByAlice.channel.type = ChannelType.PublicThread ∧
    hasAny Sample.alice.roles Sample.roleIDs = true ∧
    resolutionRows (messageCreate Sample.config Sample.roleIDs
        (Sample.envDeleteFails Sample.history) Sample.closeByAlice) = [] := by
  decide

/-- The close command of alice that mentions carol records carol as the resolver. -/
theorem accepted_close_resolution_witness :
    resolutionRows (messageCreate Sample.config Sample.roleIDs (Sample.env Sample.history)
        Sample.closeByAlice)
      = [(Row.resolution "500" "1/01/1970 00:00:05" "carol", "resolve")] :=
  (accepted_close_resolution Sample.config Sample.roleIDs (Sample.env Sample.history)
    Sample.closeByAlice Sample.forum Sample.catalog Sample.resolvedTag Sample.alice
    rfl rfl rfl rfl (by decide) rfl rfl (by decide)).1 rfl

/-- The consolidation of a tag list that already holds the resolved tag. -/
theorem consolidate_spec_witness :
    (consolidate "10" ["11", "12", "10", "11"]).head? = some "10" ∧
    (consolidate "10" ["11", "12", "10", "11"]).count "10" = 1 ∧
    (consolidate "10" ["11", "12", "10", "11"]).count "11" = 1 :=
  have h := consolidate_spec "10" ["11", "12", "10", "11"]
  ⟨h.1, h.2.1, h.2.2.1 "11" (by decide)⟩

/-- C5, refuted as stated: alice, a staff member, sends the close command in a public
thread, the awaited deletion rejects, and no thread edit is requested. -/
theorem accepted_close_without_edit :
    isCloseCommand Sample.config Sample.closeByAlice.content = true ∧
    Sample.closeByAlice.channel.type = ChannelType.PublicThread ∧
    hasAny Sample.alice.roles Sample.roleIDs = true ∧
    edits (messageCreate Sample.config Sample.roleIDs
        (Sample.envDeleteFails Sample.history) Sample.closeByAlice) = [] ∧
    (messageCreate Sample.config Sample.roleIDs
        (Sample.envDeleteFails Sample.history) Sample.closeByAlice).error
      = some JsError.rejected := by
  decide

/-- The close command of alice: the deletion, then the archiving edit. -/
theorem accepted_close_mutations_witness :
    mutations (messageCreate Sample.config Sample.roleIDs (Sample.env Sample.history)
        Sample.closeByAlice)
      = [Effect.delete "610",
         Effect.edit "500"
           { name := none, appliedTags := some ["10", "11", "12"], archived := some true,
             locked := none }] :=
  (accepted_close_mutations Sample.config Sample.roleIDs (Sample.env Sample.history)
    Sample.closeByAlice Sample.forum Sample.catalog Sample.resolvedTag Sample.alice
    rfl rfl rfl rfl (by decide) rfl rfl (by decide)).1 rfl

/-- C6, the handler at the failing input: alice closes a thread whose only other
message is of bob; the fetched history holds no staff message, the scan runs past
the start of the array and the handler ends in a `TypeError`. -/
theorem scan_without_staff_throws :
    messageCreate Sample.config Sample.roleIDs (Sample.env Sample.historyNoStaff)
        Sample.closeByAlice
      = { effects :=
            [Effect.delete "610",
             Effect.edit "500"
               { name := none, appliedTags := some ["10", "11", "12"],
                 archived := some true, locked := none },
             Effect.sendData (Row.resolution "500" "1/01/1970 00:00:05" "carol") "resolve"],
          error := some JsError.typeError } := by
  decide

/-- C7, refuted as stated: while bob holds the staff role his message 601 sends a
first-response row against the history `[601]`; once he has lost the role, the
answer 602 of alice sends a row against `[602, 601]`, which extends that history by
a newer entry only. -/
theorem first_response_twice_after_role_change :
    (Sample.envEarly Sample.historyNoStaff).fetchMessages = some Sample.historyNoStaff ∧
    (Sample.env Sample.history).fetchMessages
      = some ([("602", Sample.answerByAlice)] ++ Sample.historyNoStaff) ∧
    firstResponseRows (messageCreate Sample.config Sample.roleIDs
        (Sample.envEarly Sample.historyNoStaff) Sample.messageByBobAsStaff)
      = [(Row.firstResponse "500" "1/01/1970 00:00:01" "bob", "response")] ∧
    firstResponseRows (messageCreate Sample.config Sample.roleIDs
        (Sample.env Sample.history) Sample.answerByAlice)
      = [(Row.firstResponse "500" "1/01/1970 00:00:02" "alice", "response")] ∧
    Sample.messageByBobAsStaff.id ≠ Sample.answerByAlice.id := by
  decide

/-- The answer of alice sends the row against `history` and against `historyLong`. -/
theorem first_response_unique_witness :
    firstResponseRows (messageCreate Sample.config Sample.roleIDs (Sample.env Sample.history)
        Sample.answerByAlice) ≠ [] ∧
    firstResponseRows (messageCreate Sample.config Sample.roleIDs
        (Sample.env Sample.historyLong) Sample.answerByAlice) ≠ [] ∧
    Sample.answerByAlice.id = Sample.answerByAlice.id :=
  ⟨by decide, by decide,
    first_response_unique Sample.config Sample.roleIDs (Sample.env Sample.history)
      (Sample.env Sample.historyLong) Sample.answerByAlice Sample.answerByAlice
      Sample.history [("603", Sample.answerByCarol)] rfl rfl rfl (by decide) (by decide)⟩

/-- A close command in a forum without the resolution tag ends in a `TypeError` with no
effect. -/
theorem missing_tag_fails_first_witness :
    (messageCreate Sample.config Sample.roleIDs (Sample.env Sample.history)
        Sample.closeNoTag).error = some JsError.typeError ∧
    (messageCreate Sample.config Sample.roleIDs (Sample.env Sample.history)
        Sample.closeNoTag).effects = [] :=
  have h := missing_tag_fails_first Sample.config Sample.roleIDs (Sample.env Sample.history)
    Sample.closeNoTag Sample.forumNoTag [{ id := "11", name := "bug" }] rfl rfl rfl
    (by decide)
  ⟨h.2.1, h.2.2.1⟩

/-- C9, refuted as stated: the UTC date and time of the instant five minutes
after the epoch renders as `1/01/1970 00:05:00`, but with the offset `5` the
function renders the epoch as `1/01/1970 05:00:00`, five hours later. -/
theorem formatTime_offset_five :
    IsCivilTimeOf (0 + 5 * 60000) ⟨1970, 1, 1, 0, 5, 0⟩ ∧
    renderCivil ⟨1970, 1, 1, 0, 5, 0⟩ = "1/01/1970 00:05:00" ∧
    formatTime Sample.configOffset5 0 = "1/01/1970 05:00:00" := by
  decide

/-- The offset `330` is read as minutes and the offset `5` as hours. -/
theorem formatTime_spec_witness :
    (∃ c : CivilTime, IsCivilTimeOf (1700000000000 + 330 * 60000) c ∧
      0 ≤ c.year ∧ c.year ≤ 9999 ∧
      formatTime Sample.configOffset330 1700000000000 = renderCivil c) ∧
    (∃ c : CivilTime, IsCivilTimeOf (0 + 5 * 3600000) c ∧
      0 ≤ c.year ∧ c.year ≤ 9999 ∧ formatTime Sample.configOffset5 0 = renderCivil c) :=
  ⟨(formatTime_spec Sample.configOffset330 1700000000000 (by decide)).1
      (by decide) (by decide) (by decide),
   (formatTime_spec Sample.configOffset5 0 (by decide)).2.1
      (by decide) (by decide) (by decide)⟩

/-- The text `!disclose` of alice closes the thread. -/
theorem close_command_recognition_witness :
    mutations (messageCreate Sample.config Sample.roleIDs (Sample.env Sample.history)
        Sample.discloseByAlice)
      = [Effect.delete "612",
         Effect.edit "500"
           { name := none, appliedTags := some ["10", "11", "12"], archived := some true,
             locked := none }] ∧
    resolutionRows (messageCreate Sample.config Sample.roleIDs (Sample.env Sample.history)
        Sample.discloseByAlice)
      = [(Row.resolution "500" "1/01/1970 00:00:07" "alice", "resolve")] :=
  (close_command_recognition Sample.config Sample.roleIDs (Sample.env Sample.history)
    Sample.discloseByAlice Sample.forum Sample.catalog Sample.resolvedTag
    rfl rfl rfl rfl).2 Sample.alice rfl rfl rfl rfl (by decide)

end ForumBot
